import Mathlib

/-!
Verification of the FreeCAD stub-generator return-type inference engine.

The development shallowly embeds the code of
`freecad_stub_gen/generators/common/return_type_converter/base.py`,
`freecad_stub_gen/generators/common/return_type_converter/full.py` and the
overload-deduplication step of
`freecad_stub_gen/generators/from_xml/method.py`.

Strings are modelled as `List Char` (ASCII discipline: the analysed
native-source text is ASCII).  Python's mutable `requiredImports` ordered set
is threaded explicitly; Python exceptions become an `Except` error component
that is carried alongside the (already mutated) import state, mirroring the
fact that Python keeps attribute mutations performed before a raise.

Helper modules of the repository that are not part of the provided sources
(`arg_types`, `str_wrapper`, `cpp_function`, `names`, `py_build_converter`)
are modelled from the specification; each such definition carries a doc
comment starting with `Modelled from the spec:`.
-/

namespace FreecadStubGen

/-- Character strings of the embedded source text. -/
abbrev Str := List Char

/-- Python `str.strip` whitespace class (ASCII part). -/
def wsp (c : Char) : Bool :=
  c = ' ' || c = '\t' || c = '\n' || c = '\r' || c = '\x0b' || c = '\x0c'

/-- Python `\w` word character (ASCII part): letters, digits, underscore. -/
def wordChar (c : Char) : Bool :=
  c.isAlpha || c.isDigit || c = '_'

/-- Left strip, as in Python `str.lstrip()`. -/
def trimL (s : Str) : Str := s.dropWhile wsp

/-- Right strip, as in Python `str.rstrip()`. -/
def trimR (s : Str) : Str := (s.reverse.dropWhile wsp).reverse

/-- Python `str.strip()`. -/
def trim (s : Str) : Str := trimR (trimL s)

/-- Prefix test, as in Python `str.startswith`. -/
def startsWith (p s : Str) : Bool := p.isPrefixOf s

/-- Suffix test, as in Python `str.endswith`. -/
def endsWith (p s : Str) : Bool := p.isSuffixOf s

/-- Python `str.removeprefix`: drop `p` when it is a prefix, else unchanged. -/
def stripPre (p s : Str) : Str :=
  if startsWith p s then s.drop p.length else s

/-- Python `str.removesuffix`: drop `p` when it is a suffix, else unchanged. -/
def stripSuf (p s : Str) : Str :=
  if endsWith p s then s.take (s.length - p.length) else s

/-- Substring containment, as in Python `in`. -/
def containsSub (needle s : Str) : Bool :=
  match s with
  | [] => needle.isEmpty
  | _ :: rest => startsWith needle s || containsSub needle rest

/-- Python `str.isidentifier` (ASCII part): nonempty, starts with a letter
or underscore, continues with letters, digits or underscores. -/
def isIdent (s : Str) : Bool :=
  match s with
  | [] => false
  | c :: rest => (c.isAlpha || c = '_') && rest.all wordChar

/-- Split at every occurrence of the (nonempty) separator sequence,
as in Python `str.split(sep)`. -/
def splitOnSeq (sep : Str) (s : Str) : List Str :=
  go (s.length + 1) s []
where
  go : Nat → Str → Str → List Str
    | 0, s, acc => [acc.reverse ++ s]
    | _ + 1, [], acc => [acc.reverse]
    | fuel + 1, c :: rest, acc =>
      if startsWith sep (c :: rest) then
        acc.reverse :: go fuel (rest.drop (sep.length - 1)) []
      else
        go fuel rest (c :: acc)

/-- Character at an index. -/
def charAt (s : Str) (i : Nat) : Option Char := s.get? i

/-- Slice `s[i:j]`. -/
def slice (s : Str) (i j : Nat) : Str := (s.drop i).take (j - i)

/-- First index `≥ i` whose character is not whitespace (`s.length` if none):
the position after a maximal `\s*` run. -/
def skipWs (s : Str) (i : Nat) : Nat := i + ((s.drop i).takeWhile wsp).length

/-- Length of the maximal `\w+` run starting at `i`. -/
def wordRunLen (s : Str) (i : Nat) : Nat := ((s.drop i).takeWhile wordChar).length

/-- Index of the first `c` at position `≥ i`, if any. -/
def firstIdxFrom (s : Str) (i : Nat) (c : Char) : Option Nat :=
  match (s.drop i).findIdx? (· = c) with
  | some k => some (i + k)
  | none => none

/-- Index of the last `c` at position `≥ i`, if any. -/
def lastIdxFrom (s : Str) (i : Nat) (c : Char) : Option Nat :=
  match ((s.drop i).reverse).findIdx? (· = c) with
  | some k => some (i + ((s.length - i) - 1 - k))
  | none => none

/-- The resolved-type data model (spec §3): `any` is the unknown/erased
`AnyValue`, `lit` a plain Python type name, `union` an insertion-ordered
duplicate-free union (`UnionArgument`/`UnionArguments` of `arg_types`). -/
inductive RetType where
  | any : RetType
  | lit : Str → RetType
  | union : List Str → RetType
deriving DecidableEq, Repr

/-- Python exceptions that can escape the resolution engine. -/
inductive Err where
  | invalidReturnType : Err
  | notImplemented : Err
  | indexError : Err
  | stopIteration : Err
  | fuelExhausted : Err
deriving DecidableEq, Repr

/-- The ordered import set (`OrderedStrSet`): a duplicate-free list in
insertion order. -/
abbrev Imports := List Str

/-- Python `OrderedStrSet.add`: append if absent. -/
def uaInsert (s : Imports) (x : Str) : Imports :=
  if x ∈ s then s else s ++ [x]

/-- Modelled from the spec: `UnionArgument(iterable)` of the absent
`arg_types` module collects members into an ordered set — duplicates
collapsed, first-insertion order preserved (spec §3). -/
def uaOfList (xs : List Str) : List Str :=
  xs.foldl uaInsert []

/-- Rendering of a resolved type by Python `str`.  `lit` renders as itself;
union members are joined; the erased type renders as `typing.Any`
(modelled from the spec: `AnyType` is the "unknown/any" type of §1/§3,
`arg_types` is absent from the sources). -/
def retStr : RetType → Str
  | .any => "typing.Any".toList
  | .lit s => s
  | .union xs => (xs.intersperse " | ".toList).flatten

/-- Modelled from the spec: the static project knowledge of §4.3/§6 — the
class → module lookup table mapping a native pointer/class token to its
fully qualified `Module.Class` Python name (`names.getClassWithModulesFromPointer`
is not among the provided sources).  Unresolvable tokens map to a bare name
without a module part so that resolution degrades to `Any` (§4.3).  The
`parsePyBuildValues` format-string parser of §4.2 step 3 is likewise absent
and is abstracted as `pbv`. -/
structure Env where
  reg : Str → Str
  pbv : Str → RetType

/-- The per-invocation fields of `ReturnTypeConverterBase.__init__`. -/
structure Ctx where
  functionBody : Str
  classNameWithModule : Str
  functionName : Str

/-- Modelled from the spec: `names.getClassName` — the class part (text
after the last dot) of a `Module.Class` qualified name (§4.3, Glossary). -/
def getClassName (s : Str) : Str :=
  (splitOnSeq ['.'] s).getLastD []

/-- Modelled from the spec: `names.getModuleName` — the module part (text
before the last dot) of a qualified name, empty (falsy) when the name has
no module qualification (§4.3, Glossary). -/
def getModuleName (s : Str) : Str :=
  let parts := splitOnSeq ['.'] s
  ((parts.dropLast.intersperse ['.']).flatten)

/-- Accessor `ReturnTypeConverterBase.className` (a `cached_property`). -/
def Ctx.className (ctx : Ctx) : Str := getClassName ctx.classNameWithModule

/-- Modelled from the spec: `converters.removeQuote` — strips the
surrounding quotes of a quoted literal argument (§4.2 step 5 speaks of
"a quoted class-name literal"). -/
def removeQuote (s : Str) : Str :=
  stripSuf ['"'] (stripPre ['"'] (trim s))

/-- Core of the Text/Token Scanner (spec §2): split a character stream at
top-level commas, stopping at the closing delimiter of the current bracket
level; quoted spans are opaque ("literal-aware matching").  This models the
absent `cpp_function.generateExpressionUntilChar` with `bracketL='('`,
`bracketR=')'`. -/
def splitTopComma (stopAtParen : Bool) : Str → Nat → Bool → Str → List Str
  | [], _, _, acc => [acc.reverse]
  | c :: rest, depth, inQuote, acc =>
    if inQuote then
      splitTopComma stopAtParen rest depth (c ≠ '"') (c :: acc)
    else if c = '"' then
      splitTopComma stopAtParen rest depth true (c :: acc)
    else if c = '(' then
      splitTopComma stopAtParen rest (depth + 1) false (c :: acc)
    else if c = ')' then
      if depth = 0 then
        if stopAtParen then [acc.reverse]
        else splitTopComma stopAtParen rest depth false (c :: acc)
      else splitTopComma stopAtParen rest (depth - 1) false (c :: acc)
    else if c = ',' && depth = 0 then
      acc.reverse :: splitTopComma stopAtParen rest 0 false []
    else
      splitTopComma stopAtParen rest depth false (c :: acc)

/-- Modelled from the spec: `cpp_function.genFuncArgs` — the balanced,
quote-aware splitting of the arguments of the first call expression in a
fragment into trimmed top-level pieces (spec §2, Text/Token Scanner). -/
def genFuncArgs (s : Str) : List Str :=
  match s.dropWhile (· ≠ '(') with
  | [] => []
  | _ :: afterParen => (splitTopComma true afterParen 0 false []).map trim

/-- Call `generateExpressionUntilChar(argsValue, 0, ',', bracketL='(', bracketR=')')`:
split a whole fragment at top-level commas (see `splitTopComma`). -/
def splitArgsText (s : Str) : List Str :=
  (splitTopComma false s 0 false []).map trim

/-- Resolution functions: fragment, end offset, `onlyLiteral` and the
incoming import state; out come the import state and the result (or the
raised exception). -/
abbrev RecFn := Str → Nat → Bool → Imports → Imports × Except Err RetType

/-- Shape of one resolver of the dispatch chain of
`ReturnTypeConverterBase.getExpressionType`: `none` means "no match, try the
next resolver" (the Python method returned `None`). -/
abbrev Matcher := Str → Nat → Bool → Imports → Imports × Except Err (Option RetType)

/-- Method `ReturnTypeConverterBase._removePrefixes` (base.py:296-310). -/
def removePrefixes (varText : Str) : Str :=
  let t := trim varText
  let t :=
    if (startsWith "new_reference_to(".toList t
          || startsWith "Py::new_reference_to(".toList t)
        && endsWith [')'] t then
      trim (stripSuf [')']
        (stripPre "new_reference_to(".toList (stripPre "Py::".toList t)))
    else t
  trim (stripPre ['*'] (trim (stripPre "const".toList t)))

/-- Method `ReturnTypeConverterBase._removeSuffix` (base.py:312-314). -/
def removeSuffixes (varText : Str) : Str :=
  trim (stripSuf ['&'] (trim (stripSuf ['*'] varText)))

/-- Method `ReturnTypeConverterBase.getInnerType` (base.py:511-521): the
overridable inner-type refinement hook; in the base class it returns the
container type unchanged.  (The container-specific overrides live in the
`inner_type_list`/`inner_type_tuple`/`inner_type_dict` mixins, which are not
among the provided sources.) -/
def getInnerType (varType : Str) (variableName : Str)
    (decStartPos decEndPos endPos : Nat) : RetType :=
  .lit varType

/-- The allocation-syntax stripping of
`ReturnTypeConverterBase._findClassWithModule` (base.py:354-355):
`text.removeprefix('Py::asObject(new ').removeprefix('new ').split('(', 1)[0]`. -/
def allocStrip (text : Str) : Str :=
  (stripPre "new ".toList (stripPre "Py::asObject(new ".toList text)).takeWhile (· ≠ '(')

/-- Method `ReturnTypeConverterBase._findClassWithModule` (base.py:352-377). -/
def findClassWithModule (env : Env) (ctx : Ctx) (text : Str) (mustDiffer : Str)
    (imp : Imports) : Imports × RetType :=
  let classWithModule := env.reg (allocStrip text)
  let cl := getClassName classWithModule
  if cl = ctx.className then
    (imp, .lit ctx.classNameWithModule)
  else if cl = "PropertyComplexGeoData".toList then
    (imp, .union (uaOfList
      ["Mesh.MeshObject".toList, "Part.Shape".toList, "Points.PointKernel".toList]))
  else
    let mod := getModuleName classWithModule
    if classWithModule ≠ mustDiffer ∧ mod ≠ [] then
      (uaInsert imp mod, .lit classWithModule)
    else
      (imp, .any)

/-- Method `ReturnTypeConverterBase._extractPivy` (base.py:316-327). -/
def extractPivy (varText : Str) : Except Err RetType :=
  let funArgs := genFuncArgs
    (stripPre "Base::Interpreter().createSWIGPointerObj".toList varText)
  match funArgs.get? 0, funArgs.get? 1 with
  | some a0, some a1 =>
    let module := removeQuote a0
    let klass := removeQuote a1
    if !startsWith "pivy".toList module || containsSub ['('] klass then
      .ok .any
    else
      let klass := trim (stripSuf ['*'] (stripPre "_p_".toList klass))
      .ok (.lit (module ++ ['.'] ++ klass))
  | _, _ => .error .indexError

/-- Method `ReturnTypeConverterBase._extractWidget` (base.py:329-341). -/
def extractWidget (varText : Str) : Except Err RetType :=
  match genFuncArgs varText with
  | [_castArg] => .ok (.lit ("qtpy.QtWidgets.QWidget".toList))
  | [_castArg, castType] =>
    let widgetType := removeQuote castType
    let widgetType := if !startsWith ['Q'] widgetType then "QWidget".toList else widgetType
    .ok (.lit ("qtpy.QtWidgets.".toList ++ widgetType))
  | _ => .error .notImplemented

/-- Method `ReturnTypeConverterBase._extractBuildValue` (base.py:343-350). -/
def extractBuildValue (rec : RecFn) (env : Env) (varText : Str) (endPos : Nat)
    (imp : Imports) : Imports × Except Err RetType :=
  let funArgs := genFuncArgs varText
  match funArgs.get? 0 with
  | none => (imp, .error .indexError)
  | some a0 =>
    let pythonType := env.pbv (removeQuote a0)
    if pythonType ≠ .any then
      (imp, .ok pythonType)
    else
      match funArgs.get? 1 with
      | none => (imp, .error .indexError)
      | some a1 => rec (trim a1) endPos true imp

/-- Sequential resolution of the packed sub-expressions of a
`PyTuple_Pack` call: the list comprehension
`[str(self.getExpressionType(v, endPos)) for v in islice(genFuncArgs(varText), 1, None)]`
of base.py:146-149, threading the import state and propagating exceptions. -/
def resolveSubTypes (rec : RecFn) : List Str → Nat → Imports → Imports × Except Err (List Str)
  | [], _, imp => (imp, .ok [])
  | a :: rest, endPos, imp =>
    match rec a endPos false imp with
    | (imp', .error e) => (imp', .error e)
    | (imp', .ok t) =>
      match resolveSubTypes rec rest endPos imp' with
      | (imp'', .error e) => (imp'', .error e)
      | (imp'', .ok ts) => (imp'', .ok (retStr t :: ts))

/-- Rendering `f'tuple[{", ".join(subTypes)}]'` (base.py:150). -/
def renderTuple (ts : List Str) : Str :=
  "tuple[".toList ++ (ts.intersperse ", ".toList).flatten ++ [']']

/-- Method `ReturnTypeConverterBase._matchLiterals` (base.py:71-83). -/
def matchLiterals : Matcher := fun varText _endPos onlyLiteral imp =>
  if varText = [] then
    (imp, .ok (some .any))
  else if varText = "0".toList || varText = "-1".toList || varText = "NULL".toList
      || varText = "nullptr".toList || varText = "0L".toList then
    if onlyLiteral then (imp, .ok (some .any))
    else (imp, .error .invalidReturnType)
  else
    (imp, .ok none)

/-- Method `ReturnTypeConverterBase._matchPyType` (base.py:85-155), with the
case arms in source order. -/
def matchPyType (rec : RecFn) : Matcher := fun varText endPos onlyLiteral imp =>
  if varText = "Py::Object()".toList then
    (imp, .ok (some (.lit "object".toList)))
  else if varText = "Py_None".toList || varText = "Py::None()".toList
      || varText = "Py_Return".toList then
    (imp, .ok (some (.lit "None".toList)))
  else if startsWith "Py::Boolean".toList varText || startsWith "PyBool_From".toList varText
      || startsWith "Py::True".toList varText || startsWith "Py::False".toList varText then
    (imp, .ok (some (.lit "bool".toList)))
  else if startsWith "Py::Long".toList varText || startsWith "PyLong_From".toList varText
      || startsWith "Py::Int".toList varText || startsWith "PyInt_From".toList varText
      || startsWith "PYINT_FROMLONG".toList varText || startsWith "int".toList varText then
    (imp, .ok (some (.lit "int".toList)))
  else if startsWith "Py::Float".toList varText
      || startsWith "PyFloat_From".toList varText then
    (imp, .ok (some (.lit "float".toList)))
  else if startsWith "Py::List".toList varText
      || startsWith "PyList_New".toList varText then
    (imp, .ok (some (.lit "list".toList)))
  else if startsWith "Py::Dict".toList varText
      || startsWith "PyDict_New".toList varText then
    (imp, .ok (some (.lit "dict".toList)))
  else if startsWith "Py::Callable".toList varText then
    (imp, .ok (some (.lit "typing.Callable".toList)))
  else if startsWith "PyByteArray_From".toList varText then
    (imp, .ok (some (.lit "bytes".toList)))
  else if startsWith "Py::String".toList varText || startsWith "PyString_From".toList varText
      || startsWith "PyUnicode_From".toList varText || startsWith "Py::Char".toList varText
      || startsWith "PyUnicode_DecodeUTF8".toList varText
      || startsWith "PYSTRING_FROMSTRING".toList varText
      || startsWith "QString".toList varText then
    (imp, .ok (some (.lit "str".toList)))
  else if containsSub "Py_True".toList varText || containsSub "Py_False".toList varText then
    (imp, .ok (some (.lit "bool".toList)))
  else if startsWith "Py::TupleN".toList varText then
    if onlyLiteral then (imp, .ok (some (.lit "tuple".toList)))
    else (imp, .ok (some (getInnerType "tuple".toList varText 0 endPos endPos)))
  else if startsWith "PyTuple_Pack".toList varText then
    match resolveSubTypes rec ((genFuncArgs varText).drop 1) endPos imp with
    | (imp', .error e) => (imp', .error e)
    | (imp', .ok ts) => (imp', .ok (some (.lit (renderTuple ts))))
  else if startsWith "Py::Tuple".toList varText
      || startsWith "PyTuple_New".toList varText then
    (imp, .ok (some (.lit "tuple".toList)))
  else
    (imp, .ok none)

/-- Method `ReturnTypeConverterBase._matchSpecial` (base.py:157-166). -/
def matchSpecial : Matcher := fun varText _endPos _onlyLiteral imp =>
  if varText = "getDocumentObjectPtr()".toList then
    (imp, .ok (some (.lit "FreeCAD.DocumentObject".toList)))
  else if startsWith "(GetApplication().openDocument(".toList varText then
    (imp, .ok (some (.lit "FreeCAD.Document".toList)))
  else
    (imp, .ok none)

/-- Method `ReturnTypeConverterBase._matchQt` (base.py:168-182). -/
def matchQt : Matcher := fun varText _endPos _onlyLiteral imp =>
  if startsWith "wrap.fromQObject(".toList varText then
    (imp, .ok (some (.lit "qtpy.QtCore.QObject".toList)))
  else if startsWith "QWidget".toList varText then
    (imp, .ok (some (.lit "qtpy.QtWidgets.QWidget".toList)))
  else if startsWith "wrap.fromQWidget(".toList varText then
    match extractWidget varText with
    | .error e => (imp, .error e)
    | .ok t => (imp, .ok (some t))
  else if startsWith "wrap.fromQIcon(".toList varText then
    (imp, .ok (some (.lit "qtpy.QtGui.QIcon".toList)))
  else
    (imp, .ok none)

/-- Method `ReturnTypeConverterBase._matchMethodCall` (base.py:184-231), with
the case arms in source order. -/
def matchMethodCall (rec : RecFn) (env : Env) (ctx : Ctx) : Matcher :=
  fun varText endPos _onlyLiteral imp =>
  if varText = "type->tp_new(type, this, nullptr)".toList then
    let (imp', r) := rec "type".toList endPos false imp
    (imp', r.map some)
  else if varText = "this->GetType()".toList || varText = "IncRef()".toList then
    (imp, .ok (some (.lit ctx.classNameWithModule)))
  else if endsWith "->copyPyObject()".toList varText then
    let (imp', r) := rec (stripSuf "->copyPyObject()".toList varText) endPos false imp
    (imp', r.map some)
  else if endsWith "->c_str()".toList varText then
    (imp, .ok (some (.lit "str".toList)))
  else if startsWith "PyRun_String".toList varText then
    (imp, .ok (some .any))
  else if startsWith "Base::Interpreter().createSWIGPointerObj(".toList varText then
    match extractPivy varText with
    | .error e => (imp, .error e)
    | .ok t => (imp, .ok (some t))
  else if startsWith "new ".toList varText
      || startsWith "Py::asObject(new ".toList varText then
    let (imp', t) := findClassWithModule env ctx varText [] imp
    (imp', .ok (some t))
  else if startsWith "Py_BuildValue(\"".toList varText then
    let (imp', r) := extractBuildValue rec env varText endPos imp
    (imp', r.map some)
  else if startsWith "Py::asObject(".toList varText || startsWith "Py::Object(".toList varText
      || startsWith "createPyObject(".toList varText then
    match genFuncArgs varText with
    | [] => (imp, .error .stopIteration)
    | rawReturnVarName :: _ =>
      let (imp', r) := rec rawReturnVarName endPos false imp
      (imp', r.map some)
  else if endsWith "Py".toList varText && isIdent varText
      && (varText.headD ' ').isUpper then
    let (imp', t) := findClassWithModule env ctx varText [] imp
    (imp', .ok (some t))
  else if endsWith "->getPyObject()".toList varText
      || endsWith ".getPyObject()".toList varText then
    let t := stripSuf [')'] (stripSuf "->".toList (stripSuf ['.']
      (stripSuf "getPyObject()".toList varText)))
    let t := match lastIdxFrom t 0 '(' with
      | some k => t.drop (k + 1)
      | none => t
    let (imp', r) := rec t endPos false imp
    (imp', r.map some)
  else
    (imp, .ok none)

/-- Method `ReturnTypeConverterBase._matchFreeCAD` (base.py:233-263), with
the case arms in source order. -/
def matchFreeCAD (rec : RecFn) : Matcher := fun varText endPos _onlyLiteral imp =>
  if startsWith "Py::BoundingBox".toList varText then
    (imp, .ok (some (.lit "FreeCAD.BoundBox".toList)))
  else if startsWith "Py::Matrix".toList varText then
    (imp, .ok (some (.lit "FreeCAD.Matrix".toList)))
  else if startsWith "Py::Rotation".toList varText then
    (imp, .ok (some (.lit "FreeCAD.Rotation".toList)))
  else if startsWith "Py::Placement".toList varText then
    (imp, .ok (some (.lit "FreeCAD.Placement".toList)))
  else if startsWith "Py::Vector2d".toList varText
      || startsWith "Base::Vector2dPy::create(".toList varText then
    (imp, .ok (some (.lit "FreeCAD.Vector2d".toList)))
  else if startsWith "Py::Vector".toList varText then
    (imp, .ok (some (.lit "FreeCAD.Vector".toList)))
  else if startsWith "MainWindowPy::createWrapper".toList varText then
    (imp, .ok (some (.lit "FreeCADGui.MainWindowPy".toList)))
  else if startsWith "shape2pyshape".toList varText
      || startsWith "Part::shape2pyshape".toList varText then
    (imp, .ok (some (.lit "Part.Shape".toList)))
  else if startsWith "getShapes<".toList varText then
    let templateClass := (stripPre "getShapes<".toList varText).takeWhile (· ≠ '>')
    match rec templateClass endPos false imp with
    | (imp', .error e) => (imp', .error e)
    | (imp', .ok innerClass) =>
      (imp', .ok (some (.lit ("list[".toList ++ retStr innerClass ++ [']']))))
  else
    (imp, .ok none)

/-!
The declaration/assignment search regex of
`ReturnTypeConverterBase._findVariableType` (base.py:386-408) is

```
(?P<directive>\#)?(?>\s*)
(?P<type>[^\d\W][\w:<>*\s]*(?<![:\s]))\s*
(?:\b\w+\s*,\s*)*\b{variableName}\b\s*
(?:(?:,\s*\w+\s*)*|=\s*(?P<val>[^;]*)|\((?P<args>[^;]+)\))?[;:]
```

It is rendered below as a direct backtracking matcher specialised to this
pattern.  Choice points and their exploration order mirror the regex engine:
the greedy `type` group is shrunk from its maximal run (subject to the
trailing negative lookbehind), the greedy declaration-list repetitions are
explored most-repetitions-first, the optional tail tries its alternatives in
pattern order, and the greedy `[^;]*`/`[^;]+` captures prefer their longest
extent.  `(?>\s*)` and the `\s*` runs are forced maximal because every
following pattern element begins with a non-space character.
-/

/-- One declaration/assignment match: the `directive` flag, the `type`, `val`
and `args` captures and the span of the whole match. -/
structure DeclMatch where
  directive : Bool
  type : Str
  val : Option Str
  args : Option Str
  mstart : Nat
  mend : Nat
deriving DecidableEq, Repr

/-- Word boundary `\b` right before a word character at `i`: the previous
character must not be a word character. -/
def prevNonWord (s : Str) (i : Nat) : Bool :=
  if i = 0 then true
  else
    match charAt s (i - 1) with
    | some c => !wordChar c
    | none => true

/-- Word boundary `\b` right after a word character ending at `i`: the
character at `i` must not be a word character (or the string ends). -/
def curNonWord (s : Str) (i : Nat) : Bool :=
  match charAt s i with
  | some c => !wordChar c
  | none => true

/-- Characters allowed by the `type` group body class `[\w:<>*\s]`. -/
def typeChar (c : Char) : Bool :=
  wordChar c || c = ':' || c = '<' || c = '>' || c = '*' || wsp c

/-- Negative lookbehind `(?<![:\s])` at position `e`. -/
def lookOkAt (s : Str) (e : Nat) : Bool :=
  match charAt s (e - 1) with
  | some c => !(c = ':' || wsp c)
  | none => false

/-- Terminator `[;:]` at `r`; yields the position after the match. -/
def termAt (s : Str) (r : Nat) : Option Nat :=
  match charAt s r with
  | some ';' => some (r + 1)
  | some ':' => some (r + 1)
  | _ => none

/-- One repetition `,\s*\w+\s*` of the trailing multi-declaration
alternative; yields the position after the repetition. -/
def alt1RepAt (s : Str) (r : Nat) : Option Nat :=
  if charAt s r = some ',' then
    let r1 := skipWs s (r + 1)
    let w := wordRunLen s r1
    if w = 0 then none else some (skipWs s (r1 + w))
  else none

/-- Greedy `(?:,\s*\w+\s*)*[;:]` from `r`: longer repetition counts are
preferred, as under regex backtracking. -/
def tryAlt1 (s : Str) : Nat → Nat → Option Nat
  | 0, _ => none
  | fuel + 1, r =>
    match alt1RepAt s r with
    | some r' => (tryAlt1 s fuel r').orElse (fun _ => termAt s r)
    | none => termAt s r

/-- Alternative `=\s*(?P<val>[^;]*)` followed by `[;:]`: the greedy `val`
extends to the first `;` when one exists, otherwise (backtracking from the
end) to the last `:`.  Yields the capture and the position after the match. -/
def tryAlt2 (s : Str) (p5 : Nat) : Option (Str × Nat) :=
  if charAt s p5 = some '=' then
    let p6 := skipWs s (p5 + 1)
    match firstIdxFrom s p6 ';' with
    | some j => some (slice s p6 j, j + 1)
    | none =>
      match lastIdxFrom s p6 ':' with
      | some k => some (slice s p6 k, k + 1)
      | none => none
  else none

/-- Alternative `\((?P<args>[^;]+)\)` followed by `[;:]`: the greedy `args`
stops before the first `;`; backtracking finds the rightmost `)` that is
directly followed by the `[;:]` terminator.  Yields the capture and the
position after the match. -/
def tryAlt3 (s : Str) (p5 : Nat) : Option (Str × Nat) :=
  if charAt s p5 = some '(' then
    let lim := (firstIdxFrom s (p5 + 1) ';').getD s.length
    ((List.range' (p5 + 2) (lim - (p5 + 2))).reverse).findSome? (fun r =>
      if charAt s r = some ')' &&
          (charAt s (r + 1) = some ';' || charAt s (r + 1) = some ':') then
        some (slice s (p5 + 1) r, r + 2)
      else none)
  else none

/-- The optional tail after the variable name, alternatives in pattern
order (`val?`, `args?`, end position).  The empty first alternative also
covers the wholly-absent optional group. -/
def afterVar (s : Str) (p5 : Nat) : Option (Option Str × Option Str × Nat) :=
  match tryAlt1 s (s.length + 1) p5 with
  | some e => some (none, none, e)
  | none =>
    match tryAlt2 s p5 with
    | some (v, e) => some (some v, none, e)
    | none =>
      match tryAlt3 s p5 with
      | some (a, e) => some (none, some a, e)
      | none => none

/-- Match `\b{variableName}\b\s*` at `q` and continue with the tail. -/
def tryVarAt (s : Str) (var : Str) (q : Nat) : Option (Option Str × Option Str × Nat) :=
  if prevNonWord s q && startsWith var (s.drop q) && curNonWord s (q + var.length) then
    afterVar s (skipWs s (q + var.length))
  else none

/-- One repetition `\b\w+\s*,\s*` of the declaration list before the
variable name; yields the position after the repetition. -/
def declRepAt (s : Str) (q : Nat) : Option Nat :=
  if prevNonWord s q then
    let w := wordRunLen s q
    if w = 0 then none
    else
      let q1 := skipWs s (q + w)
      if charAt s q1 = some ',' then some (skipWs s (q1 + 1)) else none
  else none

/-- Greedy `(?:\b\w+\s*,\s*)*` then the variable name: more repetitions are
preferred, as under regex backtracking. -/
def tryDeclList (s : Str) (var : Str) : Nat → Nat → Option (Option Str × Option Str × Nat)
  | 0, _ => none
  | fuel + 1, q =>
    match declRepAt s q with
    | some q' => (tryDeclList s var fuel q').orElse (fun _ => tryVarAt s var q)
    | none => tryVarAt s var q

/-- The greedy `type` group: ends are tried longest-first from the maximal
`[\w:<>*\s]*` run, each subject to the `(?<![:\s])` lookbehind, and for each
end the rest of the pattern is matched. -/
def tryTypeEnds (s : Str) (var : Str) (p2 : Nat) :
    Option (Nat × Option Str × Option Str × Nat) :=
  let run := ((s.drop (p2 + 1)).takeWhile typeChar).length
  ((List.range' (p2 + 1) (run + 1)).reverse).findSome? (fun e =>
    if lookOkAt s e then
      match tryDeclList s var (s.length + 1) (skipWs s e) with
      | some (v, a, en) => some (e, v, a, en)
      | none => none
    else none)

/-- One attempt of the whole declaration pattern at start position `i`. -/
def matchDeclAt (s : Str) (var : Str) (i : Nat) : Option DeclMatch :=
  let dir := charAt s i = some '#'
  let p1 := if dir then i + 1 else i
  let p2 := skipWs s p1
  match charAt s p2 with
  | some c0 =>
    if wordChar c0 && !c0.isDigit then
      match tryTypeEnds s var p2 with
      | some (e, v, a, en) =>
        some { directive := dir, type := slice s p2 e, val := v, args := a,
               mstart := i, mend := en }
      | none => none
    else none
  | none => none

/-- The scan of `re.finditer`: leftmost matches, non-overlapping, resuming
after each match.  (Every match consumes at least one character, so the scan
position strictly increases; the fuel argument only bounds the recursion.) -/
def findDeclMatchesGo (s : Str) (var : Str) : Nat → Nat → List DeclMatch
  | 0, _ => []
  | fuel + 1, i =>
    if i ≥ s.length then []
    else
      match matchDeclAt s var i with
      | some m => m :: findDeclMatchesGo s var fuel (max m.mend (i + 1))
      | none => findDeclMatchesGo s var fuel (i + 1)

/-- All matches of `variableDecReg.finditer(self.functionBody, endpos=endPos)`
(base.py:409). -/
def findDeclMatches (body : Str) (var : Str) (endPos : Nat) : List DeclMatch :=
  let s := body.take endPos
  findDeclMatchesGo s var (s.length + 1) 0

/-- Method `ReturnTypeConverterBase._extractTypeFromMatch` (base.py:472-481). -/
def extractTypeFromMatch (m : DeclMatch) : Option Str :=
  let v := m.type
  if v = "return".toList || v = "else".toList then none
  else
    let v :=
      if containsSub ['<'] v && containsSub ['>'] v then
        ((v.dropWhile (· ≠ '<')).drop 1).takeWhile (· ≠ '>')
      else v
    some (trim (stripSuf ['*'] (trim (stripPre "const".toList v))))

/-- One attempt of the assignment pattern `{variableName}\b\s*=\s*([^;]*);`
(base.py:490) at start position `i`: the capture and the match end. -/
def matchAssignAt (s : Str) (var : Str) (i : Nat) : Option (Str × Nat) :=
  if startsWith var (s.drop i) && curNonWord s (i + var.length) then
    let p := skipWs s (i + var.length)
    if charAt s p = some '=' then
      let q := skipWs s (p + 1)
      match firstIdxFrom s q ';' with
      | some j => some (slice s q j, j + 1)
      | none => none
    else none
  else none

/-- The scan of `regex.finditer(self.functionBody, startPos, endpos=endPos)`
(base.py:500) for the assignment pattern. -/
def findAssignMatchesGo (s : Str) (var : Str) : Nat → Nat → List (Str × Nat)
  | 0, _ => []
  | fuel + 1, i =>
    if i ≥ s.length then []
    else
      match matchAssignAt s var i with
      | some m => m :: findAssignMatchesGo s var fuel (max m.2 (i + 1))
      | none => findAssignMatchesGo s var fuel (i + 1)

/-- All assignment matches between `startPos` and `endPos`. -/
def findAssignMatches (body : Str) (var : Str) (startPos endPos : Nat) : List (Str × Nat) :=
  let s := body.take endPos
  findAssignMatchesGo s var (s.length + 1) startPos

/-- Method `ReturnTypeConverterBase._genVariableTypeFromRegex`
(base.py:496-509): resolve the right-hand side of every assignment match,
yielding union members and plain types, skipping `AnyValue` results and
propagating exceptions. -/
def genVariableTypeFromRegex (rec : RecFn) (endPos : Nat) (onlyLiteral : Bool) :
    List (Str × Nat) → Imports → Imports × Except Err (List Str)
  | [], imp => (imp, .ok [])
  | (variableTypeText, _) :: rest, imp =>
    match rec variableTypeText endPos onlyLiteral imp with
    | (imp', .error e) => (imp', .error e)
    | (imp', .ok varType) =>
      match genVariableTypeFromRegex rec endPos onlyLiteral rest imp' with
      | (imp'', .error e) => (imp'', .error e)
      | (imp'', .ok ts) =>
        match varType with
        | .union xs => (imp'', .ok (xs ++ ts))
        | .lit x => (imp'', .ok (x :: ts))
        | .any => (imp'', .ok ts)

/-- Method `ReturnTypeConverterBase._getRetTypeFromAssignment`
(base.py:483-494): union the types of all assignments between the
declaration and the use site (with `onlyLiteral=False`, base.py:491);
an empty union degrades to `AnyValue`. -/
def getRetTypeFromAssignment (rec : RecFn) (body : Str) (var : Str)
    (startPos endPos : Nat) (imp : Imports) : Imports × Except Err RetType :=
  match genVariableTypeFromRegex rec endPos false
      (findAssignMatches body var startPos endPos) imp with
  | (imp', .error e) => (imp', .error e)
  | (imp', .ok ts) =>
    let u := uaOfList ts
    if u.isEmpty then (imp', .ok .any) else (imp', .ok (.union u))

/-- The loop body of `ReturnTypeConverterBase._findVariableType`
(base.py:414-468) applied to one declaration match: resolve the declared
type (refining the generic placeholder types through the assigned value or
the first constructor argument), fall back to the assignment scan when the
result is `None` or unknown — folding `None` into the union (the
`AnyValue.value` arm is modelled from the spec: a bare `None` result stands,
§4.2 variable-type search) — and finally run the inner-type hook on plain
string types. -/
def processDeclMatch (rec : RecFn) (ctx : Ctx) (var : Str) (endPos : Nat)
    (m : DeclMatch) (imp : Imports) : Imports × Except Err RetType :=
  let varTypeDec := (extractTypeFromMatch m).getD []
  let step1 : Imports × Except Err RetType :=
    if varTypeDec ∈ ["auto".toList, "PyObject".toList, "Py::Object".toList,
        "PyTypeObject".toList, "PyObjectBase".toList] then
      match m.val with
      | some (c :: cs) => rec (c :: cs) endPos true imp
      | _ =>
        if varTypeDec ≠ "auto".toList then
          match m.args with
          | some (c :: cs) =>
            match splitArgsText (c :: cs) with
            | f0 :: _ => rec f0 endPos false imp
            | [] => (imp, .error .indexError)
          | _ => (imp, .ok .any)
        else (imp, .ok .any)
    else
      rec varTypeDec endPos true imp
  match step1 with
  | (imp1, .error e) => (imp1, .error e)
  | (imp1, .ok varType) =>
    let isNone := varType = .lit "None".toList
    let afterFallback : Imports × Except Err RetType :=
      if isNone ∨ varType = .any then
        match getRetTypeFromAssignment rec ctx.functionBody var m.mend endPos imp1 with
        | (imp2, .error e) => (imp2, .error e)
        | (imp2, .ok vt2) =>
          let vt3 :=
            if isNone then
              match vt2 with
              | .union u => .union (uaInsert u "None".toList)
              | .lit x => .union (uaOfList ["None".toList, x])
              | .any => .lit "None".toList
            else vt2
          (imp2, .ok vt3)
      else (imp1, .ok varType)
    match afterFallback with
    | (imp3, .error e) => (imp3, .error e)
    | (imp3, .ok vt) =>
      match vt with
      | .lit x => (imp3, .ok (getInnerType x var m.mstart m.mend endPos))
      | _ => (imp3, .ok vt)

/-- The `for declarationMatch in reversed(matches)` loop of
`ReturnTypeConverterBase._findVariableType` (base.py:410-470): skip
directive matches and matches without an extractable type, process the
first remaining (i.e. latest) match, and when no match is processed resolve
the bare name literally (base.py:470). -/
def declLoop (rec : RecFn) (ctx : Ctx) (var : Str) (endPos : Nat) :
    List DeclMatch → Imports → Imports × Except Err RetType
  | [], imp => rec var endPos true imp
  | m :: rest, imp =>
    if m.directive then declLoop rec ctx var endPos rest imp
    else
      match extractTypeFromMatch m with
      | none => declLoop rec ctx var endPos rest imp
      | some [] => declLoop rec ctx var endPos rest imp
      | some (_ :: _) => processDeclMatch rec ctx var endPos m imp

/-- A declaration match the loop of `_findVariableType` does not skip:
no directive, and an extractable nonempty type. -/
def usableDecl (m : DeclMatch) : Bool :=
  !m.directive &&
    match extractTypeFromMatch m with
    | some (_ :: _) => true
    | _ => false

/-- Method `ReturnTypeConverterBase._findVariableType` (base.py:379-470).
(The dead `classNameWithModule is None` check cannot fire for the
string-typed field and is not modelled.) -/
def findVariableType (rec : RecFn) (ctx : Ctx) (var : Str) (endPos : Nat)
    (imp : Imports) : Imports × Except Err RetType :=
  if var = "this".toList then
    (imp, .ok (.lit ctx.classNameWithModule))
  else
    declLoop rec ctx var endPos
      ((findDeclMatches ctx.functionBody var endPos).reverse) imp

/-- Method `ReturnTypeConverterBase._matchFinalPossibilities`
(base.py:265-294), with the case arms in source order; the unmatched
fallthrough logs a warning and resolves to `AnyValue` (base.py:290-292),
so this resolver never passes. -/
def matchFinalPossibilities (rec : RecFn) (env : Env) (ctx : Ctx) : Matcher :=
  fun varText endPos onlyLiteral imp =>
  if onlyLiteral then
    if (splitOnSeq "::".toList varText).all isIdent then
      let maybeClass :=
        if !endsWith "Py".toList varText then varText ++ "Py".toList else varText
      let (imp', t) := findClassWithModule env ctx maybeClass varText imp
      (imp', .ok (some t))
    else (imp, .ok (some .any))
  else if isIdent varText then
    let (imp', r) := findVariableType rec ctx varText endPos imp
    (imp', r.map some)
  else if startsWith ['('] varText && endsWith [')'] varText then
    let (imp', r) := rec (stripSuf [')'] (stripPre ['('] varText)) endPos onlyLiteral imp
    (imp', r.map some)
  else if containsSub "==".toList varText then
    (imp, .ok (some (.lit "bool".toList)))
  else
    (imp, .ok (some .any))

/-- First-non-null dispatch through a resolver chain: the loop of
`ReturnTypeConverterBase.getExpressionType` (base.py:57-69); when every
resolver passes, the result is `AnyValue` (base.py:69). -/
def runChain : List Matcher → Str → Nat → Bool → Imports → Imports × Except Err RetType
  | [], _, _, _, imp => (imp, .ok .any)
  | m :: rest, s, endPos, onlyLiteral, imp =>
    match m s endPos onlyLiteral imp with
    | (imp', .error e) => (imp', .error e)
    | (imp', .ok none) => runChain rest s endPos onlyLiteral imp'
    | (imp', .ok (some t)) => (imp', .ok t)

/-- The resolver tuple of `getExpressionType` (base.py:57-65), in source
order. -/
def matcherChain (rec : RecFn) (env : Env) (ctx : Ctx) : List Matcher :=
  [matchLiterals, matchPyType rec, matchSpecial, matchQt,
   matchMethodCall rec env ctx, matchFreeCAD rec,
   matchFinalPossibilities rec env ctx]

/-- Method `ReturnTypeConverterBase.getExpressionType` (base.py:50-69):
normalize the fragment, then dispatch through the resolver chain.  The
fuel argument bounds the recursion depth (Python recursion has no such
bound; exhaustion models a `RecursionError`). -/
def getExpressionType (env : Env) (ctx : Ctx) : Nat → RecFn
  | 0, _, _, _, imp => (imp, .error .fuelExhausted)
  | fuel + 1, varText, endPos, onlyLiteral, imp =>
    runChain (matcherChain (getExpressionType env ctx fuel) env ctx)
      (removeSuffixes (removePrefixes varText)) endPos onlyLiteral imp

/-- Modelled from the spec's words: the resolver priority order exactly as
§4.2 lists it and claim C1 repeats it — literal rules (step 2),
foreign-object-builder rules (step 3), domain-object rules (step 4: the
named-factory table and the value-type table), GUI-toolkit wrapper rules
(step 5), method-call rules (step 6), fallback (step 7).  It exists only to
compare the specified order with the implemented chain. -/
def specOrderedChain (rec : RecFn) (env : Env) (ctx : Ctx) : List Matcher :=
  [matchLiterals, matchPyType rec, matchSpecial, matchFreeCAD rec,
   matchQt, matchMethodCall rec env ctx,
   matchFinalPossibilities rec env ctx]

/-- Dispatch through `specOrderedChain` (the order claimed by the spec),
with the same normalization as `getExpressionType`. -/
def dispatchPerSpecOrder (env : Env) (ctx : Ctx) (fuel : Nat) : RecFn :=
  fun varText endPos onlyLiteral imp =>
    runChain (specOrderedChain (getExpressionType env ctx fuel) env ctx)
      (removeSuffixes (removePrefixes varText)) endPos onlyLiteral imp

/-- One match of `ReturnTypeConverter.REG_RETURN = re.compile(r'return ([^;]+);')`
(full.py:26): the captured expression and the match end. -/
def returnMatchesGo (s : Str) : Nat → Nat → List (Str × Nat)
  | 0, _ => []
  | fuel + 1, i =>
    if i ≥ s.length then []
    else if startsWith "return ".toList (s.drop i) then
      match firstIdxFrom s (i + 7) ';' with
      | some j =>
        if j > i + 7 then (slice s (i + 7) j, j + 1) :: returnMatchesGo s fuel (j + 1)
        else returnMatchesGo s fuel (i + 1)
      | none => returnMatchesGo s fuel (i + 1)
    else returnMatchesGo s fuel (i + 1)

/-- All matches of `REG_RETURN.finditer(self.functionBody)` (full.py:41). -/
def returnMatches (body : Str) : List (Str × Nat) :=
  returnMatchesGo body (body.length + 1) 0

/-- Flattening of one resolved return type into yielded items
(full.py:44-47): union members are yielded one by one. -/
def flattenRet : RetType → List RetType
  | .union xs => xs.map .lit
  | t => [t]

/-- The loop of `ReturnTypeConverter._genReturnType` (full.py:40-49) over an
explicit list of return-statement matches: resolve each return expression,
catch `InvalidReturnType` (contributing nothing for that statement and
continuing), yield everything else, and propagate any other exception. -/
def goReturnItems (resolve : Str → Nat → Imports → Imports × Except Err RetType) :
    List (Str × Nat) → Imports → Imports × Except Err (List RetType)
  | [], imp => (imp, .ok [])
  | (expr, ePos) :: rest, imp =>
    match resolve expr ePos imp with
    | (imp', .error .invalidReturnType) => goReturnItems resolve rest imp'
    | (imp', .error e) => (imp', .error e)
    | (imp', .ok t) =>
      match goReturnItems resolve rest imp' with
      | (imp'', .error e) => (imp'', .error e)
      | (imp'', .ok ts) => (imp'', .ok (flattenRet t ++ ts))

/-- Generator `ReturnTypeConverter._genReturnType` (full.py:40-49), consumed
eagerly. -/
def genReturnTypeItems (env : Env) (ctx : Ctx) (fuel : Nat) (imp : Imports) :
    Imports × Except Err (List RetType) :=
  goReturnItems (fun expr ePos imp => getExpressionType env ctx fuel expr ePos false imp)
    (returnMatches ctx.functionBody) imp

/-- Modelled from the spec: `UnionArguments.imports` of the absent
`arg_types` module — the module names of the qualified members of a union,
accumulated into Required Imports (spec §3). -/
def uaImports (ts : List Str) : List Str :=
  uaOfList ((ts.map getModuleName).filter (fun m => !m.isEmpty))

/-- Method `ReturnTypeConverter.getReturnType` (full.py:33-38): collect the
yielded items into `UnionArguments` (an ordered string set, modelled from
the spec, §3), update the required imports, and wrap into `RawRepr` —
`none` models `inspect.Signature.empty`, the result of `RawRepr` of no
arguments (`annotation_parameter` is absent from the sources). -/
def getReturnType (env : Env) (ctx : Ctx) (fuel : Nat) (imp : Imports) :
    Imports × Except Err (Option Str) :=
  match genReturnTypeItems env ctx fuel imp with
  | (imp', .error e) => (imp', .error e)
  | (imp', .ok items) =>
    let returnTypes := uaOfList (items.map retStr)
    let imp2 := (uaImports returnTypes).foldl uaInsert imp'
    if returnTypes.isEmpty then (imp2, .ok none)
    else (imp2, .ok (some ((returnTypes.intersperse " | ".toList).flatten)))

/-- Method `ReturnTypeConverter.getStrReturnType` (full.py:28-31): render
the return type, or `'object'` when it is `Signature.empty`. -/
def getStrReturnType (env : Env) (ctx : Ctx) (fuel : Nat) (imp : Imports) :
    Imports × Except Err Str :=
  match getReturnType env ctx fuel imp with
  | (i, .error e) => (i, .error e)
  | (i, .ok none) => (i, .ok "object".toList)
  | (i, .ok (some s)) => (i, .ok s)

/-- Python `dict.fromkeys` key collection: first-seen-wins insertion,
duplicates dropped, used by `XmlMethodGenerator.genMethod` (method.py:80-81). -/
def dictFromKeys (l : List Str) : List Str :=
  l.foldl uaInsert []

/-- The overload-deduplication step of `XmlMethodGenerator.genMethod`
(method.py:77-81): render every discovered signature to its canonical
string and keep the first occurrence of each rendering. -/
def genMethodSignatures {Sig : Type} (render : Sig → Str) (allSignatures : List Sig) :
    List Str :=
  dictFromKeys (allSignatures.map render)

/-!  Concrete instances used by witnesses and counterexamples. -/

/-- An environment with an empty class registry and an unknown-format
build-value parser. -/
def envA : Env := { reg := fun _ => [], pbv := fun _ => .any }

/-- A converter state with an empty function body. -/
def ctxA : Ctx := { functionBody := [], classNameWithModule := [], functionName := [] }

/-- A registry knowing the `MatrixPy` pointer class. -/
def envB : Env :=
  { reg := fun s => if s = "MatrixPy".toList then "FreeCAD.Matrix".toList else [],
    pbv := fun _ => .any }

/-- A converter state currently generating `FreeCAD.Matrix`. -/
def ctxB : Ctx :=
  { functionBody := [], classNameWithModule := "FreeCAD.Matrix".toList, functionName := [] }

/-- A registry knowing the shared geometry base class pointer. -/
def envC : Env :=
  { reg := fun s =>
      if s = "PropertyComplexGeoData".toList then "App.PropertyComplexGeoData".toList
      else [],
    pbv := fun _ => .any }

/-- A converter state currently generating the shared geometry base class
itself. -/
def ctxC : Ctx :=
  { functionBody := [], classNameWithModule := "App.PropertyComplexGeoData".toList,
    functionName := [] }

/-- A converter state currently generating `Mesh.MeshObject`. -/
def ctxD : Ctx :=
  { functionBody := [], classNameWithModule := "Mesh.MeshObject".toList,
    functionName := [] }

/-- A function body declaring the same variable twice before its return. -/
def ctxTwoDecls : Ctx :=
  { functionBody := "PyObject* x=PyLong_From(a);PyObject* x=PyFloat_From(b);return x;".toList,
    classNameWithModule := [], functionName := [] }

/-- A function body declaring a variable as `Py_None` and reassigning it. -/
def ctxNoneAssign : Ctx :=
  { functionBody := "PyObject* x=Py_None;x=PyLong_From(c);return x;".toList,
    classNameWithModule := [], functionName := [] }

/-- A function body with a sentinel return among meaningful returns. -/
def ctxThreeReturns : Ctx :=
  { functionBody := "if (a) { return NULL; } return PyLong_From(x); return Py_True;".toList,
    classNameWithModule := [], functionName := [] }

/-- A function body whose only return statement is a bare sentinel. -/
def ctxOnlyNull : Ctx :=
  { functionBody := "return NULL;".toList, classNameWithModule := [], functionName := [] }

/-!  C2 — sentinel literals. -/

/-- C2: for every fragment in the sentinel set `{0, -1, NULL, nullptr, 0L}`,
`getExpressionType` raises `InvalidReturnType` when called with
`onlyLiteral=false` and returns `AnyValue` when called with
`onlyLiteral=true` — independently of the environment, the converter state,
the end offset, the import state and the (positive) recursion budget. -/
theorem getExpressionType_sentinels (env : Env) (ctx : Ctx) (fuel endPos : Nat)
    (imp : Imports) (s : Str)
    (hs : s ∈ ["0".toList, "-1".toList, "NULL".toList, "nullptr".toList, "0L".toList])
    (hfuel : 0 < fuel) :
    getExpressionType env ctx fuel s endPos false imp = (imp, .error .invalidReturnType) ∧
    getExpressionType env ctx fuel s endPos true imp = (imp, .ok .any) := by
  obtain ⟨fuel, rfl⟩ : ∃ n, fuel = n + 1 :=
    ⟨fuel - 1, by omega⟩
  simp only [List.mem_cons, List.not_mem_nil, or_false] at hs
  rcases hs with rfl | rfl | rfl | rfl | rfl
  · exact ⟨rfl, rfl⟩
  · exact ⟨rfl, rfl⟩
  · exact ⟨rfl, rfl⟩
  · exact ⟨rfl, rfl⟩
  · exact ⟨rfl, rfl⟩

/-- Witness for C2 at the fragment `NULL`. -/
theorem getExpressionType_sentinels_witness :
    getExpressionType envA ctxA 1 "NULL".toList 0 false []
      = ([], .error .invalidReturnType) ∧
    getExpressionType envA ctxA 1 "NULL".toList 0 true [] = ([], .ok .any) :=
  getExpressionType_sentinels envA ctxA 1 0 [] "NULL".toList (by decide) (by decide)

/-!  C5 — self-referential construction. -/

/-- C5: whenever `_findClassWithModule` resolves a construction expression
whose class equals the class currently being generated, it returns the
current class's own module-qualified name and leaves the required-imports
set unchanged. -/
theorem findClassWithModule_self_reference (env : Env) (ctx : Ctx) (imp : Imports)
    (text mustDiffer : Str)
    (h : getClassName (env.reg (allocStrip text)) = ctx.className) :
    findClassWithModule env ctx text mustDiffer imp = (imp, .lit ctx.classNameWithModule) := by
  unfold findClassWithModule
  rw [if_pos h]

/-- Witness for C5: resolving `new MatrixPy(a, b)` while generating
`FreeCAD.Matrix`. -/
theorem findClassWithModule_self_reference_witness :
    getClassName (envB.reg (allocStrip "new MatrixPy(a, b)".toList)) = ctxB.className ∧
    findClassWithModule envB ctxB "new MatrixPy(a, b)".toList [] []
      = ([], .lit "FreeCAD.Matrix".toList) :=
  ⟨by decide, findClassWithModule_self_reference envB ctxB [] _ _ (by decide)⟩

/-!  C6 — the shared geometry base class. -/

/-- C6, counterexample to the claim as stated: resolving a construction of
the shared base class `PropertyComplexGeoData` while the class currently
being generated is itself `PropertyComplexGeoData` yields that single class
(the self-reference case precedes the union case in base.py:359-369), not
the three-way union. -/
theorem findClassWithModule_geo_union_counterexample :
    getClassName (envC.reg (allocStrip "new PropertyComplexGeoData(d)".toList))
      = "PropertyComplexGeoData".toList ∧
    findClassWithModule envC ctxC "new PropertyComplexGeoData(d)".toList [] []
      = ([], .lit "App.PropertyComplexGeoData".toList) ∧
    RetType.lit "App.PropertyComplexGeoData".toList
      ≠ .union ["Mesh.MeshObject".toList, "Part.Shape".toList,
                "Points.PointKernel".toList] := by
  refine ⟨by decide, by decide, by decide⟩

/-- C6 as amended: whenever `_findClassWithModule` resolves a construction
expression to the shared base class `PropertyComplexGeoData` and the class
currently being generated is not itself named `PropertyComplexGeoData`, the
result is the three-way union of exactly `Mesh.MeshObject`, `Part.Shape` and
`Points.PointKernel` (in this order). -/
theorem findClassWithModule_geo_union (env : Env) (ctx : Ctx) (imp : Imports)
    (text mustDiffer : Str)
    (h1 : getClassName (env.reg (allocStrip text)) = "PropertyComplexGeoData".toList)
    (h2 : ctx.className ≠ "PropertyComplexGeoData".toList) :
    findClassWithModule env ctx text mustDiffer imp
      = (imp, .union ["Mesh.MeshObject".toList, "Part.Shape".toList,
                      "Points.PointKernel".toList]) := by
  unfold findClassWithModule
  rw [if_neg (h1 ▸ fun he => h2 he.symm), if_pos h1]
  have hu : uaOfList ["Mesh.MeshObject".toList, "Part.Shape".toList,
      "Points.PointKernel".toList]
    = ["Mesh.MeshObject".toList, "Part.Shape".toList, "Points.PointKernel".toList] := by
    decide
  rw [hu]

/-- Witness for C6: resolving `new PropertyComplexGeoData(d)` while
generating `Mesh.MeshObject`. -/
theorem findClassWithModule_geo_union_witness :
    getClassName (envC.reg (allocStrip "new PropertyComplexGeoData(d)".toList))
      = "PropertyComplexGeoData".toList ∧
    ctxD.className ≠ "PropertyComplexGeoData".toList ∧
    findClassWithModule envC ctxD "new PropertyComplexGeoData(d)".toList [] []
      = ([], .union ["Mesh.MeshObject".toList, "Part.Shape".toList,
                     "Points.PointKernel".toList]) :=
  ⟨by decide, by decide,
    findClassWithModule_geo_union envC ctxD [] _ _ (by decide) (by decide)⟩

/-!  C10 — the `'object'` fallback. -/

/-- C10: whenever the return-type enumeration yields no type at all (every
return statement skipped or absent), `getStrReturnType` returns the string
`object`. -/
theorem getStrReturnType_object_fallback (env : Env) (ctx : Ctx) (fuel : Nat)
    (imp imp' : Imports)
    (h : genReturnTypeItems env ctx fuel imp = (imp', .ok [])) :
    getStrReturnType env ctx fuel imp = (imp', .ok "object".toList) := by
  unfold getStrReturnType getReturnType
  rw [h]
  rfl

/-- Witness for C10: a body whose only return statement is `return NULL;`. -/
theorem getStrReturnType_object_fallback_witness :
    genReturnTypeItems envA ctxOnlyNull 2 [] = ([], .ok []) ∧
    getStrReturnType envA ctxOnlyNull 2 [] = ([], .ok "object".toList) :=
  ⟨rfl, getStrReturnType_object_fallback envA ctxOnlyNull 2 [] [] rfl⟩

/-!  C1 — the dispatch order of the resolver chain. -/

/-- C1, counterexample to the claim as stated: the fragment
`shape2pyshape(x)->c_str()` matches both a method-call rule
(the `->c_str()` suffix, base.py:198) and a domain-object rule (the
`shape2pyshape` prefix of `_matchFreeCAD`, base.py:255).  The implemented
chain (base.py:57-65) runs the method-call rules before `_matchFreeCAD` and
resolves `str`, while dispatching in the order that spec §4.2 lists — the
domain-object rules of step 4 before the method-call rules of step 6 —
resolves `Part.Shape`. -/
theorem getExpressionType_order_counterexample :
    getExpressionType envA ctxA 2 "shape2pyshape(x)->c_str()".toList 0 false []
      = ([], .ok (.lit "str".toList)) ∧
    dispatchPerSpecOrder envA ctxA 2 "shape2pyshape(x)->c_str()".toList 0 false []
      = ([], .ok (.lit "Part.Shape".toList)) ∧
    RetType.lit "str".toList ≠ RetType.lit "Part.Shape".toList :=
  ⟨rfl, rfl, by decide⟩

/-- C1 as amended: `getExpressionType` normalizes the fragment and then
dispatches through the resolver chain in exactly the implemented order —
literal rules, foreign-object-builder rules, the special factory rules,
GUI-toolkit wrapper rules, method-call rules, the FreeCAD domain
value-type rules, fallback — where the first resolver returning a non-null
result determines the resolved type (a raised exception aborts the chain,
a chain exhausted without a result yields `AnyValue`). -/
theorem getExpressionType_ordered_dispatch (env : Env) (ctx : Ctx) (fuel : Nat)
    (varText : Str) (endPos : Nat) (onlyLiteral : Bool) (imp : Imports) :
    getExpressionType env ctx (fuel + 1) varText endPos onlyLiteral imp
      = runChain
          [matchLiterals, matchPyType (getExpressionType env ctx fuel), matchSpecial,
           matchQt, matchMethodCall (getExpressionType env ctx fuel) env ctx,
           matchFreeCAD (getExpressionType env ctx fuel),
           matchFinalPossibilities (getExpressionType env ctx fuel) env ctx]
          (removeSuffixes (removePrefixes varText)) endPos onlyLiteral imp
    ∧ (∀ (m : Matcher) (rest : List Matcher) (s : Str) (ePos : Nat) (ol : Bool)
         (imp0 imp' : Imports) (t : RetType),
         m s ePos ol imp0 = (imp', .ok (some t)) →
         runChain (m :: rest) s ePos ol imp0 = (imp', .ok t))
    ∧ (∀ (m : Matcher) (rest : List Matcher) (s : Str) (ePos : Nat) (ol : Bool)
         (imp0 imp' : Imports),
         m s ePos ol imp0 = (imp', .ok none) →
         runChain (m :: rest) s ePos ol imp0 = runChain rest s ePos ol imp')
    ∧ (∀ (m : Matcher) (rest : List Matcher) (s : Str) (ePos : Nat) (ol : Bool)
         (imp0 imp' : Imports) (e : Err),
         m s ePos ol imp0 = (imp', .error e) →
         runChain (m :: rest) s ePos ol imp0 = (imp', .error e))
    ∧ runChain [] varText endPos onlyLiteral imp = (imp, .ok .any) := by
  refine ⟨rfl, ?_, ?_, ?_, rfl⟩
  · intro m rest s ePos ol imp0 imp' t h
    unfold runChain
    rw [h]
  · intro m rest s ePos ol imp0 imp' h
    conv_lhs => rw [runChain]
    rw [h]
  · intro m rest s ePos ol imp0 imp' e h
    unfold runChain
    rw [h]

/-- Witness for C1: the chain stops at the method-call resolver on the
counterexample fragment, with the FreeCAD resolver still behind it. -/
theorem getExpressionType_ordered_dispatch_witness :
    matchMethodCall (getExpressionType envA ctxA 1) envA ctxA
        "shape2pyshape(x)->c_str()".toList 0 false []
      = ([], .ok (some (.lit "str".toList))) ∧
    runChain [matchMethodCall (getExpressionType envA ctxA 1) envA ctxA,
              matchFreeCAD (getExpressionType envA ctxA 1)]
        "shape2pyshape(x)->c_str()".toList 0 false []
      = ([], .ok (.lit "str".toList)) :=
  ⟨rfl,
    (getExpressionType_ordered_dispatch envA ctxA 1 [] 0 false []).2.1
      _ _ _ _ _ _ _ _ rfl⟩

/-!  C3 — `InvalidReturnType` is caught per return statement. -/

/-- Helper for C3: the return-type enumeration loop never produces the
`InvalidReturnType` error, whatever the per-statement resolver does. -/
theorem goReturnItems_ne_invalid
    (resolve : Str → Nat → Imports → Imports × Except Err RetType) :
    ∀ (l : List (Str × Nat)) (imp imp' : Imports),
      goReturnItems resolve l imp ≠ (imp', .error .invalidReturnType) := by
  intro l
  induction l with
  | nil =>
    intro imp imp' h
    exact Except.noConfusion (congrArg Prod.snd h)
  | cons x rest ih =>
    obtain ⟨expr, ePos⟩ := x
    intro imp imp' h
    unfold goReturnItems at h
    rcases hr : resolve expr ePos imp with ⟨i1, r⟩
    rw [hr] at h
    match r with
    | .error .invalidReturnType => exact ih i1 imp' h
    | .error .notImplemented => exact Err.noConfusion (Except.error.inj (congrArg Prod.snd h))
    | .error .indexError => exact Err.noConfusion (Except.error.inj (congrArg Prod.snd h))
    | .error .stopIteration => exact Err.noConfusion (Except.error.inj (congrArg Prod.snd h))
    | .error .fuelExhausted => exact Err.noConfusion (Except.error.inj (congrArg Prod.snd h))
    | .ok t =>
      have h2 : (match goReturnItems resolve rest i1 with
          | (imp'', Except.error e) => (imp'', Except.error e)
          | (imp'', Except.ok ts) => (imp'', Except.ok (flattenRet t ++ ts)))
          = (imp', Except.error Err.invalidReturnType) := h
      rcases hg : goReturnItems resolve rest i1 with ⟨i2, r2⟩
      rw [hg] at h2
      match r2 with
      | .error e2 =>
        have he : e2 = .invalidReturnType := Except.error.inj (congrArg Prod.snd h2)
        exact ih i1 i2 (he ▸ hg)
      | .ok ts => exact Except.noConfusion (congrArg Prod.snd h2)

/-- C3: for every function body, the return-type enumeration loop catches
`InvalidReturnType` per return statement — the failing statement contributes
no type and the scan continues with the remaining statements — and
`InvalidReturnType` never propagates out of the enumeration. -/
theorem genReturnType_skips_invalid (env : Env) (ctx : Ctx) (fuel : Nat) :
    (∀ (imp imp' : Imports),
       genReturnTypeItems env ctx fuel imp ≠ (imp', .error .invalidReturnType))
    ∧ (∀ (resolve : Str → Nat → Imports → Imports × Except Err RetType)
         (x : Str × Nat) (rest : List (Str × Nat)) (imp imp' : Imports),
         resolve x.1 x.2 imp = (imp', .error .invalidReturnType) →
         goReturnItems resolve (x :: rest) imp = goReturnItems resolve rest imp')
    ∧ (∀ (resolve : Str → Nat → Imports → Imports × Except Err RetType)
         (x : Str × Nat) (rest : List (Str × Nat)) (imp imp' : Imports) (t : RetType),
         resolve x.1 x.2 imp = (imp', .ok t) →
         goReturnItems resolve (x :: rest) imp
           = (match goReturnItems resolve rest imp' with
              | (imp'', .error e) => (imp'', .error e)
              | (imp'', .ok ts) => (imp'', .ok (flattenRet t ++ ts)))) := by
  refine ⟨fun imp imp' => goReturnItems_ne_invalid _ _ imp imp', ?_, ?_⟩
  · intro resolve x rest imp imp' h
    obtain ⟨expr, ePos⟩ := x
    conv_lhs => rw [goReturnItems]
    rw [h]
  · intro resolve x rest imp imp' t h
    obtain ⟨expr, ePos⟩ := x
    conv_lhs => rw [goReturnItems]
    rw [h]

/-- Witness for C3: a body whose first return statement is the sentinel
`return NULL;` — it is skipped and the two remaining returns still
contribute their types. -/
theorem genReturnType_skips_invalid_witness :
    genReturnTypeItems envA ctxThreeReturns 5 [] ≠ ([], .error .invalidReturnType) ∧
    getExpressionType envA ctxThreeReturns 5 "NULL".toList 21 false []
      = ([], .error .invalidReturnType) ∧
    goReturnItems (fun s e imp => getExpressionType envA ctxThreeReturns 5 s e false imp)
        [("NULL".toList, 21), ("PyLong_From(x)".toList, 46), ("Py_True".toList, 62)] []
      = goReturnItems (fun s e imp => getExpressionType envA ctxThreeReturns 5 s e false imp)
          [("PyLong_From(x)".toList, 46), ("Py_True".toList, 62)] [] ∧
    genReturnTypeItems envA ctxThreeReturns 5 []
      = ([], .ok [.lit "int".toList, .lit "bool".toList]) :=
  ⟨(genReturnType_skips_invalid envA ctxThreeReturns 5).1 [] [],
   rfl,
   (genReturnType_skips_invalid envA ctxThreeReturns 5).2.1
     (fun s e imp => getExpressionType envA ctxThreeReturns 5 s e false imp)
     ("NULL".toList, 21) [("PyLong_From(x)".toList, 46), ("Py_True".toList, 62)] [] [] rfl,
   rfl⟩

/-!  C7 — the variable-type search is last-match-wins. -/

/-- Helper for C7: the reversed-order loop of `_findVariableType` processes
exactly the first non-skipped match of the list it is given. -/
theorem declLoop_first_usable (rec : RecFn) (ctx : Ctx) (var : Str) (endPos : Nat) :
    ∀ (l : List DeclMatch) (imp : Imports) (m : DeclMatch) (ms : List DeclMatch),
      l.filter usableDecl = m :: ms →
      declLoop rec ctx var endPos l imp = processDeclMatch rec ctx var endPos m imp := by
  intro l
  induction l with
  | nil => intro imp m ms h; exact List.noConfusion h
  | cons c rest ih =>
    intro imp m ms h
    by_cases hd : c.directive
    · have hu : usableDecl c = false := by
        unfold usableDecl
        rw [hd]
        rfl
      rw [List.filter_cons_of_neg (by rw [hu]; exact Bool.false_ne_true)] at h
      unfold declLoop
      rw [if_pos hd]
      exact ih imp m ms h
    · rcases he : extractTypeFromMatch c with _ | ⟨_ | ⟨x, xs⟩⟩
      · have hu : usableDecl c = false := by
          unfold usableDecl
          rw [he, Bool.eq_false_iff.mpr hd]
          rfl
        rw [List.filter_cons_of_neg (by rw [hu]; exact Bool.false_ne_true)] at h
        unfold declLoop
        rw [if_neg hd, he]
        exact ih imp m ms h
      · have hu : usableDecl c = false := by
          unfold usableDecl
          rw [he, Bool.eq_false_iff.mpr hd]
          rfl
        rw [List.filter_cons_of_neg (by rw [hu]; exact Bool.false_ne_true)] at h
        unfold declLoop
        rw [if_neg hd, he]
        exact ih imp m ms h
      · have hu : usableDecl c = true := by
          unfold usableDecl
          rw [he, Bool.eq_false_iff.mpr hd]
          rfl
        rw [List.filter_cons_of_pos hu] at h
        obtain ⟨rfl, -⟩ := List.cons.inj h
        unfold declLoop
        rw [if_neg hd, he]

/-- C7: for every variable name and use-site offset, the variable-type
search processes exactly the latest declaration/assignment match before the
offset (last-match-wins): when the declaration matches that the loop does
not skip end in `m`, the result of `_findVariableType` is the processing of
`m`. -/
theorem findVariableType_last_match_wins (rec : RecFn) (ctx : Ctx) (var : Str)
    (endPos : Nat) (imp : Imports) (ms : List DeclMatch) (m : DeclMatch)
    (hvar : var ≠ "this".toList)
    (h : (findDeclMatches ctx.functionBody var endPos).filter usableDecl = ms ++ [m]) :
    findVariableType rec ctx var endPos imp = processDeclMatch rec ctx var endPos m imp := by
  unfold findVariableType
  rw [if_neg hvar]
  apply declLoop_first_usable rec ctx var endPos _ imp m ms.reverse
  rw [List.filter_reverse, h, List.reverse_append]
  rfl

/-- The earlier declaration of `x` in `ctxTwoDecls`. -/
def declMatchA : DeclMatch :=
  { directive := false, type := "PyObject*".toList, val := some "PyLong_From(a)".toList,
    args := none, mstart := 0, mend := 27 }

/-- The later declaration of `x` in `ctxTwoDecls`. -/
def declMatchB : DeclMatch :=
  { directive := false, type := "PyObject*".toList, val := some "PyFloat_From(b)".toList,
    args := none, mstart := 27, mend := 55 }

/-- Witness for C7: with two sequential declarations of `x` before the
return, the search uses the later one — the result is `float`, while
processing the earlier declaration would have given `int`. -/
theorem findVariableType_last_match_wins_witness :
    (findDeclMatches ctxTwoDecls.functionBody "x".toList 64).filter usableDecl
      = [declMatchA, declMatchB] ∧
    findVariableType (getExpressionType envA ctxTwoDecls 5) ctxTwoDecls "x".toList 64 []
      = processDeclMatch (getExpressionType envA ctxTwoDecls 5) ctxTwoDecls
          "x".toList 64 declMatchB [] ∧
    processDeclMatch (getExpressionType envA ctxTwoDecls 5) ctxTwoDecls
        "x".toList 64 declMatchB [] = ([], .ok (.lit "float".toList)) ∧
    processDeclMatch (getExpressionType envA ctxTwoDecls 5) ctxTwoDecls
        "x".toList 64 declMatchA [] = ([], .ok (.lit "int".toList)) :=
  ⟨by decide,
   findVariableType_last_match_wins (getExpressionType envA ctxTwoDecls 5) ctxTwoDecls
     "x".toList 64 [] [declMatchA] declMatchB (by decide) (by decide),
   rfl, rfl⟩

/-!  C8 — union construction and `None` folding. -/

/-- C8: union construction collapses duplicates while preserving
first-insertion order, and when the declared type of a variable resolves to
`None` while the later-assignment scan yields a union of further types, the
search folds `None` into that union alongside those types (base.py:447-458)
rather than discarding or replacing them. -/
theorem union_order_and_none_folding :
    (∀ (a b : Str), a ≠ b → uaOfList [a, b, a] = [a, b])
    ∧ (∀ (rec : RecFn) (ctx : Ctx) (var : Str) (endPos : Nat) (m : DeclMatch)
         (v : Str) (imp imp1 imp2 : Imports) (u : List Str),
         extractTypeFromMatch m = some "PyObject".toList →
         m.val = some v → v ≠ [] →
         rec v endPos true imp = (imp1, .ok (.lit "None".toList)) →
         getRetTypeFromAssignment rec ctx.functionBody var m.mend endPos imp1
           = (imp2, .ok (.union u)) →
         processDeclMatch rec ctx var endPos m imp
           = (imp2, .ok (.union (uaInsert u "None".toList)))) := by
  constructor
  · intro a b hab
    have h1 : uaInsert [] a = [a] := by simp [uaInsert]
    have h2 : uaInsert [a] b = [a, b] := by simp [uaInsert, Ne.symm hab]
    have h3 : uaInsert [a, b] a = [a, b] := by simp [uaInsert]
    simp only [uaOfList, List.foldl, h1, h2, h3]
  · intro rec ctx var endPos m v imp imp1 imp2 u hext hval hv hrec hassign
    match v, hv with
    | c :: cs, _ =>
      unfold processDeclMatch
      rw [hext, hval]
      simp only [Option.getD_some]
      rw [if_pos (by simp), hrec]
      simp only [true_or, if_true]
      rw [hassign]

/-- The declaration of `x` as `Py_None` in `ctxNoneAssign`. -/
def declMatchNone : DeclMatch :=
  { directive := false, type := "PyObject*".toList, val := some "Py_None".toList,
    args := none, mstart := 0, mend := 20 }

/-- Witness for C8: duplicates collapse order-preservingly, and for the body
`PyObject* x=Py_None;x=PyLong_From(c);return x;` the declared `None` is
folded into the assignment union, giving `int | None`. -/
theorem union_order_and_none_folding_witness :
    uaOfList ["int".toList, "str".toList, "int".toList] = ["int".toList, "str".toList] ∧
    extractTypeFromMatch declMatchNone = some "PyObject".toList ∧
    getExpressionType envA ctxNoneAssign 5 "Py_None".toList 46 true []
      = ([], .ok (.lit "None".toList)) ∧
    getRetTypeFromAssignment (getExpressionType envA ctxNoneAssign 5)
        ctxNoneAssign.functionBody "x".toList 20 46 []
      = ([], .ok (.union ["int".toList])) ∧
    processDeclMatch (getExpressionType envA ctxNoneAssign 5) ctxNoneAssign
        "x".toList 46 declMatchNone []
      = ([], .ok (.union (uaInsert ["int".toList] "None".toList))) ∧
    uaInsert ["int".toList] "None".toList = ["int".toList, "None".toList] ∧
    findVariableType (getExpressionType envA ctxNoneAssign 5) ctxNoneAssign
        "x".toList 46 []
      = ([], .ok (.union ["int".toList, "None".toList])) :=
  ⟨union_order_and_none_folding.1 "int".toList "str".toList (by decide),
   by decide, rfl, rfl,
   union_order_and_none_folding.2 (getExpressionType envA ctxNoneAssign 5) ctxNoneAssign
     "x".toList 46 declMatchNone "Py_None".toList [] [] [] ["int".toList]
     (by decide) (by decide) (by decide) rfl rfl,
   by decide, rfl⟩

/-!  C4 — `PyTuple_Pack` resolves to a parametrized tuple. -/

/-- Characters of a packed sub-expression that the top-level splitter passes
through verbatim when scanned from bracket depth `d`: no quote, parentheses
balanced (never closing below the start depth), no top-level comma. -/
def chunkOk : Str → Nat → Bool
  | [], d => d = 0
  | c :: rest, d =>
    if c = '"' then false
    else if c = '(' then chunkOk rest (d + 1)
    else if c = ')' then decide (d ≠ 0) && chunkOk rest (d - 1)
    else if c = ',' then decide (d ≠ 0) && chunkOk rest d
    else chunkOk rest d

/-- A well-formed call argument for the tuple-pack law: nonempty, already
trimmed, and opaque to the top-level splitter. -/
def goodArg (a : Str) : Bool :=
  !a.isEmpty && (trim a == a) && chunkOk a 0

/-- The text of a `PyTuple_Pack` call with the given leading count argument
and packed sub-expressions. -/
def mkPyTuplePack (count : Str) (args : List Str) : Str :=
  "PyTuple_Pack(".toList ++ ((count :: args).intersperse ", ".toList).flatten ++ [')']

theorem splitTopComma_chunk (stop : Bool) :
    ∀ (cs : Str) (d : Nat) (rest acc : Str), chunkOk cs d = true →
      splitTopComma stop (cs ++ rest) d false acc
        = splitTopComma stop rest 0 false (cs.reverse ++ acc) := by
  intro cs
  induction cs with
  | nil =>
    intro d rest acc h
    have hd : d = 0 := by simpa [chunkOk] using h
    subst hd
    simp
  | cons c cs ih =>
    intro d rest acc h
    rw [chunkOk] at h
    rw [List.cons_append]
    by_cases h1 : c = '"'
    · rw [if_pos h1] at h
      exact absurd h (by simp)
    · rw [if_neg h1] at h
      by_cases h2 : c = '('
      · rw [if_pos h2] at h
        subst h2
        rw [show splitTopComma stop ('(' :: (cs ++ rest)) d false acc
            = splitTopComma stop (cs ++ rest) (d + 1) false ('(' :: acc) from rfl]
        rw [ih (d + 1) rest ('(' :: acc) h]
        simp
      · rw [if_neg h2] at h
        by_cases h3 : c = ')'
        · rw [if_pos h3] at h
          obtain ⟨hd, h⟩ := Bool.and_eq_true_iff.mp h
          obtain ⟨k, rfl⟩ := Nat.exists_eq_succ_of_ne_zero (of_decide_eq_true hd)
          subst h3
          rw [show splitTopComma stop (')' :: (cs ++ rest)) (k + 1) false acc
              = splitTopComma stop (cs ++ rest) k false (')' :: acc) from rfl]
          rw [ih k rest (')' :: acc) h]
          simp
        · rw [if_neg h3] at h
          by_cases h4 : c = ','
          · rw [if_pos h4] at h
            obtain ⟨hd, h⟩ := Bool.and_eq_true_iff.mp h
            obtain ⟨k, rfl⟩ := Nat.exists_eq_succ_of_ne_zero (of_decide_eq_true hd)
            subst h4
            rw [show splitTopComma stop (',' :: (cs ++ rest)) (k + 1) false acc
                = splitTopComma stop (cs ++ rest) (k + 1) false (',' :: acc) from rfl]
            rw [ih (k + 1) rest (',' :: acc) h]
            simp
          · rw [if_neg h4] at h
            rw [show splitTopComma stop (c :: (cs ++ rest)) d false acc
                = splitTopComma stop (cs ++ rest) d false (c :: acc) from by
              rw [splitTopComma]
              simp [h1, h2, h3, h4]]
            rw [ih d rest (c :: acc) h]
            simp

theorem splitTopComma_last (a acc : Str) (h : chunkOk a 0 = true) :
    splitTopComma true (a ++ [')']) 0 false acc = [acc.reverse ++ a] := by
  rw [splitTopComma_chunk true a 0 [')'] acc h]
  rw [show splitTopComma true [')'] 0 false (a.reverse ++ acc)
      = [(a.reverse ++ acc).reverse] from rfl]
  simp

theorem splitTopComma_args :
    ∀ (args : List Str) (a acc : Str),
      chunkOk a 0 = true → (∀ x ∈ args, chunkOk x 0 = true) →
      splitTopComma true ((((a :: args).intersperse ", ".toList).flatten) ++ [')'])
          0 false acc
        = (acc.reverse ++ a) :: args.map (fun x => ' ' :: x) := by
  intro args
  induction args with
  | nil =>
    intro a acc ha _
    simpa using splitTopComma_last a acc ha
  | cons b rest ih =>
    intro a acc ha hall
    rw [List.intersperse_cons_cons, List.flatten_cons, List.flatten_cons,
      List.append_assoc, List.append_assoc,
      splitTopComma_chunk true a 0 _ acc ha]
    have step : splitTopComma true
        (", ".toList ++ (((b :: rest).intersperse ", ".toList).flatten ++ [')']))
          0 false (a.reverse ++ acc)
        = (a.reverse ++ acc).reverse
            :: splitTopComma true
                (((b :: rest).intersperse ", ".toList).flatten ++ [')'])
                0 false [' '] := rfl
    rw [step, ih b [' '] (hall b (List.mem_cons_self b rest))
      (fun x hx => hall x (List.mem_cons_of_mem b hx))]
    simp

theorem goodArg_spec (a : Str) (h : goodArg a = true) :
    a ≠ [] ∧ trim a = a ∧ chunkOk a 0 = true := by
  rw [goodArg] at h
  obtain ⟨h1, h3⟩ := Bool.and_eq_true_iff.mp h
  obtain ⟨h1, h2⟩ := Bool.and_eq_true_iff.mp h1
  refine ⟨?_, eq_of_beq h2, h3⟩
  intro hnil
  subst hnil
  exact Bool.noConfusion h1

theorem trimL_eq_of_trim_eq (a : Str) (h : trim a = a) : trimL a = a := by
  have hsub : trimL a <:+ a := List.dropWhile_suffix wsp
  apply List.IsSuffix.eq_of_length hsub
  have h1 : (trimL a).length ≤ a.length := hsub.length_le
  have h2 : (trimR (trimL a)).length ≤ (trimL a).length := by
    rw [trimR, List.length_reverse]
    calc ((trimL a).reverse.dropWhile wsp).length
        ≤ (trimL a).reverse.length := (List.dropWhile_suffix wsp).length_le
      _ = (trimL a).length := List.length_reverse _
  have h3 : (trimR (trimL a)).length = a.length := by rw [← trim, h]
  omega

theorem trim_space_cons (x : Str) (h : trim x = x) : trim (' ' :: x) = x := by
  have h1 : trimL (' ' :: x) = trimL x := rfl
  have h2 : trimR x = x := by
    have := h
    rw [trim, trimL_eq_of_trim_eq x h] at this
    exact this
  rw [trim, h1, trimL_eq_of_trim_eq x h, h2]

theorem genFuncArgs_mk (count : Str) (args : List Str)
    (hc : goodArg count = true) (ha : ∀ a ∈ args, goodArg a = true) :
    genFuncArgs (mkPyTuplePack count args) = count :: args := by
  obtain ⟨hcne, hctrim, hcchunk⟩ := goodArg_spec count hc
  have h0 : genFuncArgs (mkPyTuplePack count args)
      = (splitTopComma true ((((count :: args).intersperse ", ".toList).flatten) ++ [')'])
          0 false []).map trim := rfl
  rw [h0, splitTopComma_args args count [] hcchunk
    (fun x hx => (goodArg_spec x (ha x hx)).2.2)]
  simp only [List.reverse_nil, List.nil_append, List.map_cons, hctrim]
  congr 1
  · rw [List.map_map]
    have hid : ∀ x ∈ args, (trim ∘ fun y => ' ' :: y) x = x := fun x hx =>
      trim_space_cons x (goodArg_spec x (ha x hx)).2.1
    calc args.map (trim ∘ fun y => ' ' :: y) = args.map id := List.map_congr_left hid
      _ = args := List.map_id args

theorem startsWith_false_of_incomp {p q x : Str}
    (hq : startsWith q x = true) (h1 : ¬ p <+: q) (h2 : ¬ q <+: p) :
    startsWith p x = false := by
  rw [startsWith] at *
  by_contra hb
  rw [Bool.not_eq_false] at hb
  rcases List.prefix_or_prefix_of_prefix (List.isPrefixOf_iff_prefix.mp hb)
      (List.isPrefixOf_iff_prefix.mp hq) with h | h
  exacts [h1 h, h2 h]

theorem endsWith_false_of_incomp {p q x : Str}
    (hq : endsWith q x = true) (h1 : ¬ p <:+ q) (h2 : ¬ q <:+ p) :
    endsWith p x = false := by
  rw [endsWith] at *
  by_contra hb
  rw [Bool.not_eq_false] at hb
  rcases List.suffix_or_suffix_of_suffix (List.isSuffixOf_iff_suffix.mp hb)
      (List.isSuffixOf_iff_suffix.mp hq) with h | h
  exacts [h1 h, h2 h]

theorem ne_of_startsWith {q x y : Str} (hq : startsWith q x = true)
    (h : ¬ q <+: y) : x ≠ y :=
  fun he => h (he ▸ List.isPrefixOf_iff_prefix.mp hq)

theorem trimL_eq_self_of_pack {x : Str}
    (hq : startsWith "PyTuple_Pack(".toList x = true) : trimL x = x := by
  obtain ⟨r, rfl⟩ := List.isPrefixOf_iff_prefix.mp hq
  rfl

theorem trimR_eq_self_of_paren {x : Str}
    (he : endsWith [')'] x = true) : trimR x = x := by
  obtain ⟨r, rfl⟩ := List.isSuffixOf_iff_suffix.mp he
  rw [trimR, List.reverse_append,
    show ([')'] : Str).reverse ++ r.reverse = ')' :: r.reverse from rfl,
    show (')' :: r.reverse).dropWhile wsp = ')' :: r.reverse from rfl]
  simp

/-- Normalization leaves a `PyTuple_Pack(...)` fragment untouched. -/
theorem normalize_of_pack {x : Str}
    (hq : startsWith "PyTuple_Pack(".toList x = true)
    (he : endsWith [')'] x = true) :
    removeSuffixes (removePrefixes x) = x := by
  have hx : trim x = x := by
    rw [trim, trimL_eq_self_of_pack hq, trimR_eq_self_of_paren he]
  have c1 : startsWith "new_reference_to(".toList x = false :=
    startsWith_false_of_incomp hq (by decide) (by decide)
  have c2 : startsWith "Py::new_reference_to(".toList x = false :=
    startsWith_false_of_incomp hq (by decide) (by decide)
  have c3 : startsWith "const".toList x = false :=
    startsWith_false_of_incomp hq (by decide) (by decide)
  have c4 : startsWith ['*'] x = false :=
    startsWith_false_of_incomp hq (by decide) (by decide)
  have c5 : endsWith ['*'] x = false :=
    endsWith_false_of_incomp he (by decide) (by decide)
  have c6 : endsWith ['&'] x = false :=
    endsWith_false_of_incomp he (by decide) (by decide)
  rw [removePrefixes]
  simp only [hx, c1, c2, Bool.false_or, Bool.false_and, Bool.false_eq_true, if_false,
    stripPre, c3, c4, removeSuffixes, stripSuf, c5, c6]

/-- A `PyTuple_Pack(...)` fragment passes the literal rules. -/
theorem matchLiterals_none_of_pack {x : Str}
    (hq : startsWith "PyTuple_Pack(".toList x = true)
    (endPos : Nat) (ol : Bool) (imp : Imports) :
    matchLiterals x endPos ol imp = (imp, .ok none) := by
  have h0 : x ≠ [] := ne_of_startsWith hq (by decide)
  have h1 : x ≠ "0".toList := ne_of_startsWith hq (by decide)
  have h2 : x ≠ "-1".toList := ne_of_startsWith hq (by decide)
  have h3 : x ≠ "NULL".toList := ne_of_startsWith hq (by decide)
  have h4 : x ≠ "nullptr".toList := ne_of_startsWith hq (by decide)
  have h5 : x ≠ "0L".toList := ne_of_startsWith hq (by decide)
  unfold matchLiterals
  rw [if_neg h0, if_neg (by
    simp only [Bool.or_eq_true, decide_eq_true_eq, not_or]
    exact ⟨⟨⟨⟨h1, h2⟩, h3⟩, h4⟩, h5⟩)]

/-- A `PyTuple_Pack(...)` fragment free of `Py_True`/`Py_False` reaches the
tuple-pack arm of the builder rules. -/
theorem matchPyType_pack (rec : RecFn) {x : Str} (endPos : Nat) (ol : Bool)
    (imp : Imports)
    (hq : startsWith "PyTuple_Pack(".toList x = true)
    (hT : containsSub "Py_True".toList x = false)
    (hF : containsSub "Py_False".toList x = false) :
    matchPyType rec x endPos ol imp
      = (match resolveSubTypes rec ((genFuncArgs x).drop 1) endPos imp with
         | (imp', .error e) => (imp', .error e)
         | (imp', .ok ts) => (imp', .ok (some (.lit (renderTuple ts))))) := by
  have e1 : x ≠ "Py::Object()".toList := ne_of_startsWith hq (by decide)
  have e2 : x ≠ "Py_None".toList := ne_of_startsWith hq (by decide)
  have e3 : x ≠ "Py::None()".toList := ne_of_startsWith hq (by decide)
  have e4 : x ≠ "Py_Return".toList := ne_of_startsWith hq (by decide)
  have p1 : startsWith "Py::Boolean".toList x = false :=
    startsWith_false_of_incomp hq (by decide) (by decide)
  have p2 : startsWith "PyBool_From".toList x = false :=
    startsWith_false_of_incomp hq (by decide) (by decide)
  have p3 : startsWith "Py::True".toList x = false :=
    startsWith_false_of_incomp hq (by decide) (by decide)
  have p4 : startsWith "Py::False".toList x = false :=
    startsWith_false_of_incomp hq (by decide) (by decide)
  have p5 : startsWith "Py::Long".toList x = false :=
    startsWith_false_of_incomp hq (by decide) (by decide)
  have p6 : startsWith "PyLong_From".toList x = false :=
    startsWith_false_of_incomp hq (by decide) (by decide)
  have p7 : startsWith "Py::Int".toList x = false :=
    startsWith_false_of_incomp hq (by decide) (by decide)
  have p8 : startsWith "PyInt_From".toList x = false :=
    startsWith_false_of_incomp hq (by decide) (by decide)
  have p9 : startsWith "PYINT_FROMLONG".toList x = false :=
    startsWith_false_of_incomp hq (by decide) (by decide)
  have p10 : startsWith "int".toList x = false :=
    startsWith_false_of_incomp hq (by decide) (by decide)
  have p11 : startsWith "Py::Float".toList x = false :=
    startsWith_false_of_incomp hq (by decide) (by decide)
  have p12 : startsWith "PyFloat_From".toList x = false :=
    startsWith_false_of_incomp hq (by decide) (by decide)
  have p13 : startsWith "Py::List".toList x = false :=
    startsWith_false_of_incomp hq (by decide) (by decide)
  have p14 : startsWith "PyList_New".toList x = false :=
    startsWith_false_of_incomp hq (by decide) (by decide)
  have p15 : startsWith "Py::Dict".toList x = false :=
    startsWith_false_of_incomp hq (by decide) (by decide)
  have p16 : startsWith "PyDict_New".toList x = false :=
    startsWith_false_of_incomp hq (by decide) (by decide)
  have p17 : startsWith "Py::Callable".toList x = false :=
    startsWith_false_of_incomp hq (by decide) (by decide)
  have p18 : startsWith "PyByteArray_From".toList x = false :=
    startsWith_false_of_incomp hq (by decide) (by decide)
  have p19 : startsWith "Py::String".toList x = false :=
    startsWith_false_of_incomp hq (by decide) (by decide)
  have p20 : startsWith "PyString_From".toList x = false :=
    startsWith_false_of_incomp hq (by decide) (by decide)
  have p21 : startsWith "PyUnicode_From".toList x = false :=
    startsWith_false_of_incomp hq (by decide) (by decide)
  have p22 : startsWith "Py::Char".toList x = false :=
    startsWith_false_of_incomp hq (by decide) (by decide)
  have p23 : startsWith "PyUnicode_DecodeUTF8".toList x = false :=
    startsWith_false_of_incomp hq (by decide) (by decide)
  have p24 : startsWith "PYSTRING_FROMSTRING".toList x = false :=
    startsWith_false_of_incomp hq (by decide) (by decide)
  have p25 : startsWith "QString".toList x = false :=
    startsWith_false_of_incomp hq (by decide) (by decide)
  have p26 : startsWith "Py::TupleN".toList x = false :=
    startsWith_false_of_incomp hq (by decide) (by decide)
  have ppk : startsWith "PyTuple_Pack".toList x = true :=
    List.isPrefixOf_iff_prefix.mpr
      (List.IsPrefix.trans (by decide) (List.isPrefixOf_iff_prefix.mp hq))
  unfold matchPyType
  rw [if_neg e1, if_neg (by
      simp only [Bool.or_eq_true, decide_eq_true_eq, not_or]
      exact ⟨⟨e2, e3⟩, e4⟩),
    if_neg (by
      simp only [Bool.or_eq_true, not_or, Bool.not_eq_true]
      exact ⟨⟨⟨p1, p2⟩, p3⟩, p4⟩),
    if_neg (by
      simp only [Bool.or_eq_true, not_or, Bool.not_eq_true]
      exact ⟨⟨⟨⟨⟨p5, p6⟩, p7⟩, p8⟩, p9⟩, p10⟩),
    if_neg (by
      simp only [Bool.or_eq_true, not_or, Bool.not_eq_true]
      exact ⟨p11, p12⟩),
    if_neg (by
      simp only [Bool.or_eq_true, not_or, Bool.not_eq_true]
      exact ⟨p13, p14⟩),
    if_neg (by
      simp only [Bool.or_eq_true, not_or, Bool.not_eq_true]
      exact ⟨p15, p16⟩),
    if_neg (by simp only [Bool.not_eq_true]; exact p17),
    if_neg (by simp only [Bool.not_eq_true]; exact p18),
    if_neg (by
      simp only [Bool.or_eq_true, not_or, Bool.not_eq_true]
      exact ⟨⟨⟨⟨⟨⟨p19, p20⟩, p21⟩, p22⟩, p23⟩, p24⟩, p25⟩),
    if_neg (by
      simp only [Bool.or_eq_true, not_or, Bool.not_eq_true]
      exact ⟨hT, hF⟩),
    if_neg (by simp only [Bool.not_eq_true]; exact p26),
    if_pos ppk]

theorem runChain_cons_none {m : Matcher} {rest : List Matcher} {s : Str} {e : Nat}
    {o : Bool} {i i' : Imports} (h : m s e o i = (i', .ok none)) :
    runChain (m :: rest) s e o i = runChain rest s e o i' := by
  conv_lhs => rw [runChain]
  rw [h]

theorem runChain_cons_some {m : Matcher} {rest : List Matcher} {s : Str} {e : Nat}
    {o : Bool} {i i' : Imports} {t : RetType} (h : m s e o i = (i', .ok (some t))) :
    runChain (m :: rest) s e o i = (i', .ok t) := by
  unfold runChain
  rw [h]

theorem resolveSubTypes_length (rec : RecFn) :
    ∀ (l : List Str) (endPos : Nat) (imp imp' : Imports) (ts : List Str),
      resolveSubTypes rec l endPos imp = (imp', .ok ts) → ts.length = l.length := by
  intro l
  induction l with
  | nil =>
    intro endPos imp imp' ts h
    have : ([] : List Str) = ts := Except.ok.inj (congrArg Prod.snd h)
    rw [← this]
  | cons a rest ih =>
    intro endPos imp imp' ts h
    unfold resolveSubTypes at h
    rcases hr : rec a endPos false imp with ⟨i1, r⟩
    rw [hr] at h
    match r with
    | .error e => exact Except.noConfusion (congrArg Prod.snd h)
    | .ok t =>
      have h2 : (match resolveSubTypes rec rest endPos i1 with
          | (imp'', Except.error e) => (imp'', Except.error e)
          | (imp'', Except.ok ts) => (imp'', Except.ok (retStr t :: ts)))
          = (imp', Except.ok ts) := h
      rcases hg : resolveSubTypes rec rest endPos i1 with ⟨i2, r2⟩
      rw [hg] at h2
      match r2 with
      | .error e2 => exact Except.noConfusion (congrArg Prod.snd h2)
      | .ok ts2 =>
        have : retStr t :: ts2 = ts := Except.ok.inj (congrArg Prod.snd h2)
        rw [← this, List.length_cons, ih endPos i1 i2 ts2 hg, List.length_cons]

/-- C4 as amended: for every `PyTuple_Pack` call text over well-formed
arguments that does not contain `Py_True` or `Py_False` as a substring,
`getExpressionType` resolves it to the parametrized tuple type whose inner
types are exactly the resolutions of the packed sub-expressions (the
leading count argument excluded), in argument order — in particular there
are exactly as many inner types as packed sub-expressions. -/
theorem pyTuplePack_parametrized (env : Env) (ctx : Ctx) (fuel endPos : Nat)
    (imp imp' : Imports) (count : Str) (args : List Str) (ts : List Str)
    (hc : goodArg count = true)
    (ha : ∀ a ∈ args, goodArg a = true)
    (hT : containsSub "Py_True".toList (mkPyTuplePack count args) = false)
    (hF : containsSub "Py_False".toList (mkPyTuplePack count args) = false)
    (hres : resolveSubTypes (getExpressionType env ctx fuel) args endPos imp
      = (imp', .ok ts)) :
    getExpressionType env ctx (fuel + 1) (mkPyTuplePack count args) endPos false imp
      = (imp', .ok (.lit (renderTuple ts)))
    ∧ ts.length = args.length := by
  have hq : startsWith "PyTuple_Pack(".toList (mkPyTuplePack count args) = true := by
    rw [startsWith, List.isPrefixOf_iff_prefix, mkPyTuplePack]
    exact List.IsPrefix.trans (List.prefix_append _ _) (List.prefix_append _ _)
  have he : endsWith [')'] (mkPyTuplePack count args) = true := by
    rw [endsWith, List.isSuffixOf_iff_suffix, mkPyTuplePack]
    exact List.suffix_append _ _
  have hpt : matchPyType (getExpressionType env ctx fuel)
      (mkPyTuplePack count args) endPos false imp
      = (imp', .ok (some (.lit (renderTuple ts)))) := by
    rw [matchPyType_pack _ _ _ _ hq hT hF, genFuncArgs_mk count args hc ha,
      show (count :: args).drop 1 = args from rfl, hres]
  refine ⟨?_, resolveSubTypes_length _ args endPos imp imp' ts hres⟩
  rw [show getExpressionType env ctx (fuel + 1) (mkPyTuplePack count args) endPos false imp
      = runChain (matcherChain (getExpressionType env ctx fuel) env ctx)
          (removeSuffixes (removePrefixes (mkPyTuplePack count args)))
          endPos false imp from rfl,
    normalize_of_pack hq he, matcherChain,
    runChain_cons_none (matchLiterals_none_of_pack hq endPos false imp),
    runChain_cons_some hpt]

/-- C4, counterexample to the claim as stated: a `PyTuple_Pack` expression
containing `Py_True` among its packed sub-expressions is captured by the
earlier `Py_True`/`Py_False` containment rule (base.py:130-132) and resolves
to `bool`, not to the two-element parametrized tuple of the sub-expression
resolutions. -/
theorem pyTuplePack_counterexample :
    getExpressionType envA ctxA 3
        "PyTuple_Pack(2, Py_True, PyFloat_From(a))".toList 0 false []
      = ([], .ok (.lit "bool".toList)) ∧
    getExpressionType envA ctxA 2 "Py_True".toList 0 false []
      = ([], .ok (.lit "bool".toList)) ∧
    getExpressionType envA ctxA 2 "PyFloat_From(a)".toList 0 false []
      = ([], .ok (.lit "float".toList)) ∧
    RetType.lit "bool".toList ≠ .lit "tuple[bool, float]".toList :=
  ⟨rfl, rfl, rfl, by decide⟩

/-- Witness for C4: the spec's end-to-end scenario — a two-element
float pack renders as `tuple[float, float]`. -/
theorem pyTuplePack_parametrized_witness :
    mkPyTuplePack "2".toList ["PyFloat_From(a)".toList, "PyFloat_From(b)".toList]
      = "PyTuple_Pack(2, PyFloat_From(a), PyFloat_From(b))".toList ∧
    resolveSubTypes (getExpressionType envA ctxA 2)
        ["PyFloat_From(a)".toList, "PyFloat_From(b)".toList] 0 []
      = ([], .ok ["float".toList, "float".toList]) ∧
    getExpressionType envA ctxA 3
        (mkPyTuplePack "2".toList ["PyFloat_From(a)".toList, "PyFloat_From(b)".toList])
        0 false []
      = ([], .ok (.lit "tuple[float, float]".toList)) ∧
    (["float".toList, "float".toList] : List Str).length
      = (["PyFloat_From(a)".toList, "PyFloat_From(b)".toList] : List Str).length := by
  have h := pyTuplePack_parametrized envA ctxA 2 0 [] [] "2".toList
    ["PyFloat_From(a)".toList, "PyFloat_From(b)".toList]
    ["float".toList, "float".toList]
    (by decide) (by decide) (by decide) (by decide) rfl
  exact ⟨by decide, rfl, h.1, h.2⟩

/-!  C9 — overload deduplication is first-seen-wins. -/

/-- Reference formulation of first-seen-wins deduplication: keep the head
and recurse on the tail with every later duplicate of the head removed, so
each rendering survives exactly at its first (discovery) position. -/
def firstOccurrences : List Str → List Str
  | [] => []
  | s :: t => s :: firstOccurrences (t.filter (fun x => !(x == s)))
termination_by l => l.length
decreasing_by
  simp only [List.length_cons]
  exact Nat.lt_succ_of_le (List.length_filter_le _ _)

/-- Accumulator-free unfolding of the `dict.fromkeys` fold: drop every
element already seen, keep the rest in order. -/
def dfkAux (seen : List Str) : List Str → List Str
  | [] => []
  | s :: t => if s ∈ seen then dfkAux seen t else s :: dfkAux (seen ++ [s]) t

theorem foldl_uaInsert_eq_dfkAux (l : List Str) :
    ∀ acc : List Str, l.foldl uaInsert acc = acc ++ dfkAux acc l := by
  induction l with
  | nil => intro acc; simp [dfkAux]
  | cons s t ih =>
    intro acc
    by_cases hs : s ∈ acc
    · rw [List.foldl_cons]
      rw [show uaInsert acc s = acc from if_pos hs]
      rw [ih acc, dfkAux, if_pos hs]
    · rw [List.foldl_cons]
      rw [show uaInsert acc s = acc ++ [s] from if_neg hs]
      rw [ih (acc ++ [s]), dfkAux, if_neg hs, List.append_assoc]
      rfl

theorem dfkAux_eq_firstOccurrences (l : List Str) :
    ∀ seen : List Str,
      dfkAux seen l = firstOccurrences (l.filter (fun x => decide (x ∉ seen))) := by
  induction l with
  | nil => intro seen; rw [List.filter_nil, firstOccurrences]; rfl
  | cons s t ih =>
    intro seen
    by_cases hs : s ∈ seen
    · rw [dfkAux, if_pos hs,
        List.filter_cons_of_neg (by simpa using hs), ih seen]
    · rw [dfkAux, if_neg hs,
        List.filter_cons_of_pos (by simpa using hs), firstOccurrences]
      congr 1
      rw [List.filter_filter, ih (seen ++ [s])]
      congr 1
      apply List.filter_congr
      intro x _
      by_cases hxs : x = s
      · subst hxs
        simp
      · by_cases hxseen : x ∈ seen <;> simp [hxs, hxseen]

theorem mem_of_mem_firstOccurrences :
    ∀ (l : List Str) (x : Str), x ∈ firstOccurrences l → x ∈ l := by
  intro l
  induction l using firstOccurrences.induct with
  | case1 =>
    intro x hx
    rw [firstOccurrences] at hx
    exact absurd hx (List.not_mem_nil x)
  | case2 s t ih =>
    intro x hx
    rw [firstOccurrences] at hx
    rcases List.mem_cons.mp hx with rfl | hx
    · exact List.mem_cons_self _ _
    · exact List.mem_cons_of_mem _ (List.mem_of_mem_filter (ih x hx))

theorem firstOccurrences_nodup : ∀ l : List Str, (firstOccurrences l).Nodup := by
  intro l
  induction l using firstOccurrences.induct with
  | case1 =>
    rw [firstOccurrences]
    exact List.nodup_nil
  | case2 s t ih =>
    rw [firstOccurrences]
    refine List.nodup_cons.mpr ⟨fun hs => ?_, ih⟩
    have := List.of_mem_filter (mem_of_mem_firstOccurrences _ _ hs)
    simp at this

/-- C9: the overload set produced by `genMethod` is the canonical-rendering
deduplication of the discovered signatures with first-seen-wins semantics —
it equals the reference first-occurrence filtering (each rendering kept at
its first discovery position, all later duplicates dropped) and contains no
duplicate rendering. -/
theorem genMethod_dedup_first_seen {Sig : Type} (render : Sig → Str)
    (allSignatures : List Sig) :
    genMethodSignatures render allSignatures
      = firstOccurrences (allSignatures.map render) ∧
    (genMethodSignatures render allSignatures).Nodup := by
  have h : genMethodSignatures render allSignatures
      = firstOccurrences (allSignatures.map render) := by
    unfold genMethodSignatures dictFromKeys
    rw [foldl_uaInsert_eq_dfkAux, List.nil_append,
      dfkAux_eq_firstOccurrences]
    congr 1
    apply List.filter_eq_self.mpr
    intro a _
    simp
  exact ⟨h, h ▸ firstOccurrences_nodup _⟩

end FreecadStubGen
